import Mathlib

/-!
Guarded query construction of `mcp-sql-stdio-go`.

A shallow embedding of the query-construction layer of the server
(`helpers.go`, `query_tools.go`, `db.go`) together with the parts of the Go
standard library (`strings`, `unicode`) and of the SQL builder
`github.com/Masterminds/squirrel` that the handlers call.

Go strings are modelled as Lean `String`s (sequences of Unicode code points,
which is what a `range` loop over a Go string of valid UTF-8 yields).
-/

namespace McpSql

/-! ## Go standard library: `unicode` and `strings` -/

/-- Go `unicode.IsSpace`: in Latin-1 the characters tab, LF, VT, FF, CR, space,
U+0085 and U+00A0; above Latin-1 the `White_Space` range table. -/
def unicodeIsSpace (r : Char) : Bool :=
  if r.toNat ≤ 0xFF then
    r == '\t' || r == '\n' || r == Char.ofNat 0x0B || r == Char.ofNat 0x0C || r == '\r'
      || r == ' ' || r == Char.ofNat 0x85 || r == Char.ofNat 0xA0
  else
    r.toNat == 0x1680 || (0x2000 ≤ r.toNat && r.toNat ≤ 0x200A) || r.toNat == 0x2028
      || r.toNat == 0x2029 || r.toNat == 0x202F || r.toNat == 0x205F || r.toNat == 0x3000

/-- Go `unicode.IsControl`: the Latin-1 characters of category Cc
(U+0000..U+001F and U+007F..U+009F); nothing above Latin-1. -/
def unicodeIsControl (r : Char) : Bool :=
  r.toNat < 0x20 || (0x7F ≤ r.toNat && r.toNat ≤ 0x9F)

/-- Go `strings.TrimSpace`: the string without its leading and trailing
characters that satisfy `unicode.IsSpace`. -/
def TrimSpace (s : String) : String :=
  String.mk ((s.data.dropWhile unicodeIsSpace).rdropWhile unicodeIsSpace)

/-! ## `helpers.go`: the identifier sanitizer -/

/-- The test of the loop body of `sanitizeIdentifier`: the character is none of
`a`..`z`, `A`..`Z`, `0`..`9`, underscore, space, dot. -/
def sanitizeRejects (char : Char) : Bool :=
  !(decide (char ≥ 'a') && decide (char ≤ 'z')) &&
  !(decide (char ≥ 'A') && decide (char ≤ 'Z')) &&
  !(decide (char ≥ '0') && decide (char ≤ '9')) &&
  char != '_' && char != ' ' && char != '.'

/-- The `for _, char := range identifier` loop of `sanitizeIdentifier`:
returns `""` at the first rejected character and `identifier` when the
characters are exhausted. -/
def sanitizeLoop (identifier : String) : List Char → String
  | [] => identifier
  | char :: rest => if sanitizeRejects char then "" else sanitizeLoop identifier rest

/-- `sanitizeIdentifier` of `helpers.go`. -/
def sanitizeIdentifier (identifier : String) : String :=
  let identifier := TrimSpace identifier
  sanitizeLoop identifier identifier.data

/-- The character set the specification allows in an identifier: ASCII
letters, ASCII digits, underscore, space and dot. -/
def specAllowedChar (c : Char) : Bool :=
  ('a'.toNat ≤ c.toNat && c.toNat ≤ 'z'.toNat) || ('A'.toNat ≤ c.toNat && c.toNat ≤ 'Z'.toNat)
    || ('0'.toNat ≤ c.toNat && c.toNat ≤ '9'.toNat) || c == '_' || c == ' ' || c == '.'

/-- The sanitizer as the specification words it: trim surrounding whitespace;
the trimmed string if all of its characters are allowed, else the empty
string. -/
def sanitizeSpec (t : String) : String :=
  let u := TrimSpace t
  if u.data.all specAllowedChar then u else ""

/-- The SQL metacharacters the specification singles out:
semicolon, apostrophe, double quote, backslash, backtick, hyphen, slash and
asterisk. -/
def sqlMetaChars : List Char :=
  [';', Char.ofNat 39, Char.ofNat 34, Char.ofNat 92, Char.ofNat 96, '-', '/', '*']

/-- Go `unicode.ToUpper`: ASCII letters are shifted by hand; every other code
point goes through the case tables of package `unicode`, which are a parameter
`upperTable` of the model. -/
def unicodeToUpper (upperTable : Char → Char) (r : Char) : Char :=
  if r.toNat ≤ 0x7F then
    if 'a' ≤ r ∧ r ≤ 'z' then Char.ofNat (r.toNat - ('a'.toNat - 'A'.toNat)) else r
  else upperTable r

/-- Go `strings.ToUpper`: every character mapped through `unicode.ToUpper`. -/
def ToUpper (upperTable : Char → Char) (s : String) : String :=
  String.mk (s.data.map (unicodeToUpper upperTable))

/-! ## Request values (`types.go`) -/

/-- A Go `interface{}` holding what `encoding/json` decodes a JSON value to:
`nil`, `bool`, `float64` (its numeric payload, never inspected by the code
modelled here, is an integer in the model), `string`, `[]interface{}` and
`map[string]interface{}`. -/
inductive Value where
  | null
  | bool (b : Bool)
  | number (n : Int)
  | string (s : String)
  | array (vs : List Value)
  | object (kvs : List (String × Value))

/-- `WhereClause` of `types.go`. -/
structure WhereClause where
  Column : String
  Op : String
  Value : Value

/-! ## The SQL builder `github.com/Masterminds/squirrel`

The fragment of the library the handlers use: the expression types `Eq`,
`NotEq`, `Gt`, `GtOrEq`, `Lt`, `LtOrEq`, `Like` (maps, of which the code only
builds single-entry ones) and `Expr`; the select, update and delete builders;
and the two placeholder formats. -/

/-- The value a builder's `ToSql` returns without error: SQL text and the
ordered bound parameters. -/
structure Statement where
  sql : String
  args : List Value

/-- The predicate values (`sq.Sqlizer`) the code hands to `Where`. -/
inductive Sqlizer where
  | Eq (col : String) (val : Value)
  | NotEq (col : String) (val : Value)
  | Gt (col : String) (val : Value)
  | GtOrEq (col : String) (val : Value)
  | Lt (col : String) (val : Value)
  | LtOrEq (col : String) (val : Value)
  | Like (col : String) (val : Value)
  | Expr (sql : String) (args : List Value)

/-- squirrel `isListType`: arrays and slices that are not a `driver.Value`. -/
def isListType : Value → Bool
  | .array _ => true
  | _ => false

/-- Go `strings.Repeat`. -/
def stringsRepeat (s : String) : Nat → String
  | 0 => ""
  | n + 1 => s ++ stringsRepeat s n

/-- squirrel `Placeholders`: `"?,?,...,?"` with `count` question marks. -/
def Placeholders (count : Nat) : String :=
  if count < 1 then "" else String.mk ((stringsRepeat ",?" count).data.drop 1)

/-- squirrel `Eq.toSQL` for a single-entry map. -/
def eqToSQL (useNotOpr : Bool) (key : String) (val : Value) : Except String Statement :=
  let equalOpr := if useNotOpr then "<>" else "="
  let inOpr := if useNotOpr then "NOT IN" else "IN"
  let nullOpr := if useNotOpr then "IS NOT" else "IS"
  let inEmptyExpr := if useNotOpr then "(1=1)" else "(1=0)"
  match val with
  | .null => .ok ⟨key ++ " " ++ nullOpr ++ " NULL", []⟩
  | .array vs =>
    if vs.length == 0 then .ok ⟨inEmptyExpr, []⟩
    else .ok ⟨key ++ " " ++ inOpr ++ " (" ++ Placeholders vs.length ++ ")", vs⟩
  | v => .ok ⟨key ++ " " ++ equalOpr ++ " ?", [v]⟩

/-- squirrel `Lt.toSql` for a single-entry map. -/
def ltToSql (opposite orEq : Bool) (key : String) (val : Value) : Except String Statement :=
  let opr := if opposite then ">" else "<"
  let opr := if orEq then opr ++ "=" else opr
  match val with
  | .null => .error "cannot use null with less than or greater than operators"
  | .array _ => .error "cannot use array or slice with less than or greater than operators"
  | v => .ok ⟨key ++ " " ++ opr ++ " ?", [v]⟩

/-- squirrel `Like.toSql` for a single-entry map. -/
def likeToSql (opr : String) (key : String) (val : Value) : Except String Statement :=
  match val with
  | .null => .error "cannot use null with like operators"
  | .array _ => .error "cannot use array or slice with like operators"
  | v => .ok ⟨key ++ " " ++ opr ++ " ?", [v]⟩

/-- `ToSql` of a predicate value. The arguments of every `Expr` the code builds
are request values, none of them a `Sqlizer`, so `Expr` returns its text and
arguments as they are. -/
def Sqlizer.ToSql : Sqlizer → Except String Statement
  | .Eq col val => eqToSQL false col val
  | .NotEq col val => eqToSQL true col val
  | .Gt col val => ltToSql true false col val
  | .GtOrEq col val => ltToSql true true col val
  | .Lt col val => ltToSql false false col val
  | .LtOrEq col val => ltToSql false true col val
  | .Like col val => likeToSql "LIKE" col val
  | .Expr sql args => .ok ⟨sql, args⟩

/-- squirrel `appendToSql`: renders the parts in order onto the writer `w`;
stops at the first error, skips a part whose SQL is empty, writes `sep` before
every written part whose index is positive. `i` is the index of the head of
`parts`. -/
def appendToSql (sep : String) : List (Except String Statement) → Nat → String → List Value →
    Except String (String × List Value)
  | [], _, w, args => .ok (w, args)
  | p :: parts, i, w, args =>
    match p with
    | .error err => .error err
    | .ok ⟨partSql, partArgs⟩ =>
      if partSql.length == 0 then appendToSql sep parts (i + 1) w args
      else
        let w := if i > 0 then w ++ sep else w
        appendToSql sep parts (i + 1) (w ++ partSql) (args ++ partArgs)

/-- squirrel `part.ToSql` for a part made from a string. -/
def stringPart (pred : String) : Except String Statement := .ok ⟨pred, []⟩

/-- squirrel `PlaceholderFormat`: `sq.Question` or `sq.Dollar`. -/
inductive PlaceholderFormat where
  | Question
  | Dollar
  deriving DecidableEq

/-- squirrel `replacePositionalPlaceholders` on the characters of the text:
`??` is an escaped question mark, every other `?` becomes the marker `pfx`
followed by the next number, counting from `i + 1`. -/
def replacePositionalPlaceholders (pfx : String) : List Char → Nat → List Char
  | [], _ => []
  | '?' :: '?' :: rest, i => '?' :: replacePositionalPlaceholders pfx rest i
  | '?' :: rest, i => (pfx ++ toString (i + 1)).data ++ replacePositionalPlaceholders pfx rest (i + 1)
  | c :: rest, i => c :: replacePositionalPlaceholders pfx rest i

/-- `PlaceholderFormat.ReplacePlaceholders`. -/
def PlaceholderFormat.ReplacePlaceholders : PlaceholderFormat → String → String
  | .Question, sql => sql
  | .Dollar, sql => String.mk (replacePositionalPlaceholders "$" sql.data 0)

/-- The fields of squirrel's `selectData` that the handlers set. -/
structure SelectBuilder where
  PlaceholderFormat : PlaceholderFormat
  Columns : List String
  From : Option String
  WhereParts : List Sqlizer
  OrderByParts : List String
  Limit : String
  Offset : String

/-- `SelectBuilder.Where`: a predicate that is neither `nil` nor `""` is
appended to the where parts. -/
def SelectBuilder.Where (b : SelectBuilder) (pred : Sqlizer) : SelectBuilder :=
  { b with WhereParts := b.WhereParts ++ [pred] }

/-- `selectData.toSqlRaw` followed by `ReplacePlaceholders`. -/
def SelectBuilder.ToSql (d : SelectBuilder) : Except String Statement :=
  if d.Columns.length == 0 then .error "select statements must have at least one result column"
  else
    let sql := "SELECT "
    match appendToSql ", " (d.Columns.map stringPart) 0 sql [] with
    | .error err => .error err
    | .ok (sql, args) =>
    match (match d.From with
      | none => Except.ok (sql, args)
      | some frm => appendToSql "" [stringPart frm] 0 (sql ++ " FROM ") args) with
    | .error err => .error err
    | .ok (sql, args) =>
    match (if d.WhereParts.length > 0 then
        appendToSql " AND " (d.WhereParts.map Sqlizer.ToSql) 0 (sql ++ " WHERE ") args
      else .ok (sql, args)) with
    | .error err => .error err
    | .ok (sql, args) =>
    match (if d.OrderByParts.length > 0 then
        appendToSql ", " (d.OrderByParts.map stringPart) 0 (sql ++ " ORDER BY ") args
      else .ok (sql, args)) with
    | .error err => .error err
    | .ok (sql, args) =>
    let sql := if d.Limit.length > 0 then sql ++ " LIMIT " ++ d.Limit else sql
    let sql := if d.Offset.length > 0 then sql ++ " OFFSET " ++ d.Offset else sql
    .ok ⟨d.PlaceholderFormat.ReplacePlaceholders sql, args⟩

/-- The fields of squirrel's `updateData` that the handlers set: the table, the
`(column, value)` set clauses and the where parts. -/
structure UpdateBuilder where
  PlaceholderFormat : PlaceholderFormat
  Table : String
  SetClauses : List (String × Value)
  WhereParts : List Sqlizer

/-- `UpdateBuilder.Set`. -/
def UpdateBuilder.Set (b : UpdateBuilder) (column : String) (value : Value) : UpdateBuilder :=
  { b with SetClauses := b.SetClauses ++ [(column, value)] }

/-- `UpdateBuilder.Where`. -/
def UpdateBuilder.Where (b : UpdateBuilder) (pred : Sqlizer) : UpdateBuilder :=
  { b with WhereParts := b.WhereParts ++ [pred] }

/-- Go `strings.Join`. -/
def stringsJoin (sep : String) : List String → String
  | [] => ""
  | [a] => a
  | a :: rest => a ++ sep ++ stringsJoin sep rest

/-- `updateData.ToSql`: every set value is a request value, rendered as `?`. -/
def UpdateBuilder.ToSql (d : UpdateBuilder) : Except String Statement :=
  if d.Table.length == 0 then .error "update statements must specify a table"
  else if d.SetClauses.length == 0 then
    .error "update statements must have at least one Set clause"
  else
    let sql := "UPDATE " ++ d.Table ++ " SET "
    let setSqls := d.SetClauses.map (fun setClause => setClause.1 ++ " = " ++ "?")
    let args := d.SetClauses.map (fun setClause => setClause.2)
    let sql := sql ++ stringsJoin ", " setSqls
    match (if d.WhereParts.length > 0 then
        appendToSql " AND " (d.WhereParts.map Sqlizer.ToSql) 0 (sql ++ " WHERE ") args
      else .ok (sql, args)) with
    | .error err => .error err
    | .ok (sql, args) => .ok ⟨d.PlaceholderFormat.ReplacePlaceholders sql, args⟩

/-- The fields of squirrel's `deleteData` that the handlers set. -/
structure DeleteBuilder where
  PlaceholderFormat : PlaceholderFormat
  From : String
  WhereParts : List Sqlizer

/-- `DeleteBuilder.Where`. -/
def DeleteBuilder.Where (b : DeleteBuilder) (pred : Sqlizer) : DeleteBuilder :=
  { b with WhereParts := b.WhereParts ++ [pred] }

/-- `deleteData.ToSql`. -/
def DeleteBuilder.ToSql (d : DeleteBuilder) : Except String Statement :=
  if d.From.length == 0 then .error "delete statements must specify a From table"
  else
    let sql := "DELETE FROM " ++ d.From
    match (if d.WhereParts.length > 0 then
        appendToSql " AND " (d.WhereParts.map Sqlizer.ToSql) 0 (sql ++ " WHERE ") []
      else .ok (sql, [])) with
    | .error err => .error err
    | .ok (sql, args) => .ok ⟨d.PlaceholderFormat.ReplacePlaceholders sql, args⟩

/-! ## `helpers.go`: the predicate compiler -/

/-- The `switch op` of `applyWhereConditions`, with its `BETWEEN` case: the
predicate passed to `query.Where` for the sanitized column `col`, the
upper-cased operator `op` and the clause value. -/
def whereNodeSelect (col op : String) (value : Value) : Sqlizer :=
  if op = "=" then .Eq col value
  else if op = "!=" ∨ op = "<>" then .NotEq col value
  else if op = ">" then .Gt col value
  else if op = ">=" then .GtOrEq col value
  else if op = "<" then .Lt col value
  else if op = "<=" then .LtOrEq col value
  else if op = "LIKE" ∨ op = "ILIKE" then .Like col value
  else if op = "IN" then .Eq col value
  else if op = "NOT IN" then .NotEq col value
  else if op = "IS NULL" then .Eq col .null
  else if op = "IS NOT NULL" then .NotEq col .null
  else if op = "BETWEEN" then .Expr (col ++ " BETWEEN ? AND ?") [value]
  else .Expr (col ++ " " ++ op ++ " ?") [value]

/-- The `switch op` of `applyWhereConditionsUpdate` and of
`applyWhereConditionsDelete` (the two are the same text): no `BETWEEN` case. -/
def whereNodeMutate (col op : String) (value : Value) : Sqlizer :=
  if op = "=" then .Eq col value
  else if op = "!=" ∨ op = "<>" then .NotEq col value
  else if op = ">" then .Gt col value
  else if op = ">=" then .GtOrEq col value
  else if op = "<" then .Lt col value
  else if op = "<=" then .LtOrEq col value
  else if op = "LIKE" ∨ op = "ILIKE" then .Like col value
  else if op = "IN" then .Eq col value
  else if op = "NOT IN" then .NotEq col value
  else if op = "IS NULL" then .Eq col .null
  else if op = "IS NOT NULL" then .NotEq col .null
  else .Expr (col ++ " " ++ op ++ " ?") [value]

/-- `applyWhereConditions` of `helpers.go`. -/
def applyWhereConditions (upperTable : Char → Char) :
    SelectBuilder → List WhereClause → SelectBuilder
  | query, [] => query
  | query, clause :: clauses =>
    let col := sanitizeIdentifier clause.Column
    if col = "" then applyWhereConditions upperTable query clauses
    else
      let op := ToUpper upperTable clause.Op
      applyWhereConditions upperTable (query.Where (whereNodeSelect col op clause.Value)) clauses

/-- `applyWhereConditionsUpdate` of `helpers.go`. -/
def applyWhereConditionsUpdate (upperTable : Char → Char) :
    UpdateBuilder → List WhereClause → UpdateBuilder
  | query, [] => query
  | query, clause :: clauses =>
    let col := sanitizeIdentifier clause.Column
    if col = "" then applyWhereConditionsUpdate upperTable query clauses
    else
      let op := ToUpper upperTable clause.Op
      applyWhereConditionsUpdate upperTable (query.Where (whereNodeMutate col op clause.Value))
        clauses

/-- `applyWhereConditionsDelete` of `helpers.go`. -/
def applyWhereConditionsDelete (upperTable : Char → Char) :
    DeleteBuilder → List WhereClause → DeleteBuilder
  | query, [] => query
  | query, clause :: clauses =>
    let col := sanitizeIdentifier clause.Column
    if col = "" then applyWhereConditionsDelete upperTable query clauses
    else
      let op := ToUpper upperTable clause.Op
      applyWhereConditionsDelete upperTable (query.Where (whereNodeMutate col op clause.Value))
        clauses

/-! ## `db.go`: configuration and the allowlist -/

/-- The two values of `dbType` with which `initDatabase` succeeds. -/
inductive DbType where
  | postgres
  | mysql
  deriving DecidableEq

/-- The package-level configuration variables of `db.go`, and the Unicode case
table the Go runtime brings along. -/
structure Config where
  dbType : DbType
  dbNames : List String
  readOnly : Bool
  allowRawQuery : Bool
  maxSelectLimit : Int
  maxUpdateLimit : Int
  maxDeleteLimit : Int
  upperTable : Char → Char

/-- The placeholder format `initDatabase` gives the statement builder `qb`:
`sq.Dollar` for postgres, `sq.Question` for mysql. -/
def Config.qb (cfg : Config) : PlaceholderFormat :=
  match cfg.dbType with
  | .postgres => .Dollar
  | .mysql => .Question

/-- The errors the handlers return, one constructor per `fmt.Errorf` site. -/
inductive HandlerError where
  /-- Message "database is in read-only mode". -/
  | readOnly
  /-- Message "access to database ... not allowed (allowed: ...)". -/
  | accessDenied (database : String) (allowed : List String)
  /-- Message "WHERE clause is required for UPDATE" (or "for DELETE"). -/
  | whereRequired
  /-- Message "failed to build count query: ...". -/
  | buildCountFailed (cause : String)
  /-- Message "failed to check row count: ...". -/
  | checkRowCountFailed (cause : String)
  /-- Message "UPDATE (DELETE) would affect ... row(s), which exceeds the maximum limit of ...". -/
  | rowLimitExceeded (rowCount : Int) (maxLimit : Int)
  /-- Message "failed to build query: ...". -/
  | buildFailed (cause : String)
  /-- Message "query failed: ...", "insert failed: ...", "update failed: ..." or
  "delete failed: ...". -/
  | execFailed (cause : String)
  /-- Message "raw SQL queries are blocked. Set ALLOW_RAW_QUERY=true to enable this
  dangerous feature". -/
  | rawQueryBlocked
  /-- Message "failed to switch to database ...: ...". -/
  | switchDatabaseFailed (database : String) (cause : String)
  /-- Message "function or procedure ... not found in ...". -/
  | routineNotFound (name : String) (scope : String)
  /-- Message "stored procedures are not allowed in read-only mode". -/
  | proceduresNotAllowed
  /-- Message "procedure execution failed: ...". -/
  | procedureFailed (cause : String)
  /-- Message "function execution failed: ...". -/
  | functionFailed (cause : String)
  /-- Message "failed to get tables: ...". -/
  | getTablesFailed (cause : String)
  /-- An error of the driver that the handler returns as it is. -/
  | driver (cause : String)

/-- The `for` loop of `validateDatabase`. -/
def validateDatabaseLoop (database : String) : List String → Bool
  | [] => false
  | allowedDB :: rest => if database = allowedDB then true else validateDatabaseLoop database rest

/-- `validateDatabase` of `db.go`. -/
def validateDatabase (cfg : Config) (database : String) : Except HandlerError Unit :=
  if validateDatabaseLoop database cfg.dbNames then .ok ()
  else .error (.accessDenied database cfg.dbNames)

/-! ## `query_tools.go`: the handlers -/

/-- `QuerySelectInput` of `types.go`; `Limit` and `Offset` are Go `int`s. -/
structure QuerySelectInput where
  Database : String
  Table : String
  Schema : String
  Columns : List String
  Where : List WhereClause
  OrderBy : List String
  Limit : Int
  Offset : Int

/-- `QueryUpdateInput` of `types.go`; `Data` lists the entries of the map in the
order the `range` loop of the handler visits them. -/
structure QueryUpdateInput where
  Database : String
  Table : String
  Schema : String
  Data : List (String × Value)
  Where : List WhereClause

/-- `QueryDeleteInput` of `types.go`. -/
structure QueryDeleteInput where
  Database : String
  Table : String
  Schema : String
  Where : List WhereClause

/-- One pass of a `rows.Next()` loop in the catalog handlers: the error of
`rows.Scan`, if any, and the strings its destinations hold afterwards. -/
structure ScannedRow where
  scanErr : Option String
  dests : List String

/-- The database behind `db`, as far as one handler call observes it: what a
row-returning query, the scan of a one-row integer query and an executed
statement (with its `RowsAffected`) answer; what `QueryRowContext(...).Scan`
stores in a string and in an `interface{}`; and what a catalog query followed
by its `rows.Next()` / `rows.Scan` loop yields. -/
structure Database where
  query : Statement → Except String (List (List (String × Value)))
  queryRowInt : Statement → Except String Int
  exec : Statement → Except String Int
  queryRowString : Statement → Except String String
  queryRowValue : Statement → Except String Value
  queryScan : Statement → Except String (List ScannedRow)

/-- The outcome of one handler call: the statements it issued to the database,
in order, and what it returned. -/
structure Run (α : Type) where
  issued : List Statement
  result : Except HandlerError α

/-- The fully qualified table name the handlers build: the backquoted pair for
mysql, the bare table otherwise. -/
def qualifiedTableName (cfg : Config) (database table : String) : String :=
  if cfg.dbType = .mysql then "`" ++ database ++ "`.`" ++ table ++ "`" else table

/-- Go conversion `uint64(x)` of an `int`. -/
def uint64 (x : Int) : Nat := (x % 2 ^ 64).toNat

/-- `qb.Select(columns...).From(table)`. -/
def selectFrom (cfg : Config) (columns : List String) (table : String) : SelectBuilder :=
  ⟨cfg.qb, columns, some table, [], [], "", ""⟩

/-- The limit clamp of `QuerySelect`. -/
def effectiveLimit (cfg : Config) (requested : Int) : Int :=
  let limit := requested
  if limit ≤ 0 then cfg.maxSelectLimit
  else if limit > cfg.maxSelectLimit then cfg.maxSelectLimit
  else limit

/-- The builder `QuerySelect` has assembled when it calls `query.ToSql()`. -/
def selectQuery (cfg : Config) (input : QuerySelectInput) : SelectBuilder :=
  let tableName := qualifiedTableName cfg input.Database input.Table
  let query := selectFrom cfg [] tableName
  let query :=
    if input.Columns.length > 0 then
      { query with Columns := query.Columns ++ input.Columns.map sanitizeIdentifier }
    else { query with Columns := query.Columns ++ ["*"] }
  let query :=
    if input.Where.length > 0 then applyWhereConditions cfg.upperTable query input.Where
    else query
  let query :=
    { query with OrderByParts := query.OrderByParts ++ input.OrderBy.map sanitizeIdentifier }
  let limit := effectiveLimit cfg input.Limit
  let query := { query with Limit := toString (uint64 limit) }
  if input.Offset > 0 then { query with Offset := toString (uint64 input.Offset) } else query

/-- `QuerySelect` of `query_tools.go`; the result is the scanned rows. -/
def QuerySelect (cfg : Config) (db : Database) (input : QuerySelectInput) :
    Run (List (List (String × Value))) :=
  match validateDatabase cfg input.Database with
  | .error err => ⟨[], .error err⟩
  | .ok _ =>
    match (selectQuery cfg input).ToSql with
    | .error err => ⟨[], .error (.buildFailed err)⟩
    | .ok stmt =>
      match db.query stmt with
      | .error err => ⟨[stmt], .error (.execFailed err)⟩
      | .ok rows => ⟨[stmt], .ok rows⟩

/-- The preflight `COUNT(*)` query of `QueryUpdate` and `QueryDelete`. -/
def countQuery (cfg : Config) (tableName : String) (clauses : List WhereClause) : SelectBuilder :=
  applyWhereConditions cfg.upperTable (selectFrom cfg ["COUNT(*)"] tableName) clauses

/-- The `UPDATE` builder of `QueryUpdate`: the set clauses in map iteration
order, then the where conditions. -/
def updateQuery (cfg : Config) (input : QueryUpdateInput) : UpdateBuilder :=
  let tableName := qualifiedTableName cfg input.Database input.Table
  let query : UpdateBuilder := ⟨cfg.qb, tableName, [], []⟩
  let query := input.Data.foldl (fun q kv => q.Set (sanitizeIdentifier kv.1) kv.2) query
  applyWhereConditionsUpdate cfg.upperTable query input.Where

/-- The `DELETE` builder of `QueryDelete`. -/
def deleteQuery (cfg : Config) (input : QueryDeleteInput) : DeleteBuilder :=
  let tableName := qualifiedTableName cfg input.Database input.Table
  applyWhereConditionsDelete cfg.upperTable ⟨cfg.qb, tableName, []⟩ input.Where

/-- The tail of `QueryUpdate` and `QueryDelete` after the row-cap test: `ToSql`
of the mutating builder, then `db.ExecContext`; the result is the number of
affected rows. -/
def buildAndExec (db : Database) (countStmt : Statement) (built : Except String Statement) :
    Run Int :=
  match built with
  | .error err => ⟨[countStmt], .error (.buildFailed err)⟩
  | .ok stmt =>
    match db.exec stmt with
    | .error err => ⟨[countStmt, stmt], .error (.execFailed err)⟩
    | .ok affected => ⟨[countStmt, stmt], .ok affected⟩

/-- `QueryUpdate` of `query_tools.go`. -/
def QueryUpdate (cfg : Config) (db : Database) (input : QueryUpdateInput) : Run Int :=
  if cfg.readOnly then ⟨[], .error .readOnly⟩
  else
    match validateDatabase cfg input.Database with
    | .error err => ⟨[], .error err⟩
    | .ok _ =>
      if input.Where.length = 0 then ⟨[], .error .whereRequired⟩
      else
        let tableName := qualifiedTableName cfg input.Database input.Table
        match (countQuery cfg tableName input.Where).ToSql with
        | .error err => ⟨[], .error (.buildCountFailed err)⟩
        | .ok countStmt =>
          match db.queryRowInt countStmt with
          | .error err => ⟨[countStmt], .error (.checkRowCountFailed err)⟩
          | .ok rowCount =>
            if rowCount > cfg.maxUpdateLimit then
              ⟨[countStmt], .error (.rowLimitExceeded rowCount cfg.maxUpdateLimit)⟩
            else buildAndExec db countStmt (updateQuery cfg input).ToSql

/-- `QueryDelete` of `query_tools.go`. -/
def QueryDelete (cfg : Config) (db : Database) (input : QueryDeleteInput) : Run Int :=
  if cfg.readOnly then ⟨[], .error .readOnly⟩
  else
    match validateDatabase cfg input.Database with
    | .error err => ⟨[], .error err⟩
    | .ok _ =>
      if input.Where.length = 0 then ⟨[], .error .whereRequired⟩
      else
        let tableName := qualifiedTableName cfg input.Database input.Table
        match (countQuery cfg tableName input.Where).ToSql with
        | .error err => ⟨[], .error (.buildCountFailed err)⟩
        | .ok countStmt =>
          match db.queryRowInt countStmt with
          | .error err => ⟨[countStmt], .error (.checkRowCountFailed err)⟩
          | .ok rowCount =>
            if rowCount > cfg.maxDeleteLimit then
              ⟨[countStmt], .error (.rowLimitExceeded rowCount cfg.maxDeleteLimit)⟩
            else buildAndExec db countStmt (deleteQuery cfg input).ToSql

/-- The predicate nodes one pass of an `applyWhereConditions*` loop appends,
for the operator dispatch `node`: a clause whose sanitized column is empty
yields none, every other clause yields one, in clause order. -/
def compileNodes (node : String → String → Value → Sqlizer) (upperTable : Char → Char) :
    List WhereClause → List Sqlizer
  | [] => []
  | clause :: clauses =>
    if sanitizeIdentifier clause.Column = "" then compileNodes node upperTable clauses
    else
      node (sanitizeIdentifier clause.Column) (ToUpper upperTable clause.Op) clause.Value
        :: compileNodes node upperTable clauses

/-! ## Concrete values for the closed statements -/

/-- A configuration with the defaults of `initDatabase` for the limits, one
allowed database `shop`, writes allowed, and a case table that leaves
non-ASCII characters alone. -/
def exampleConfig (dbType : DbType) : Config :=
  ⟨dbType, ["shop"], false, false, 1000, 1, 1, fun c => c⟩

/-- A database that answers every count query with `rowCount`, every executed
statement with `affected` rows and every row query with no rows; scanned
strings are empty and a scanned value is `nil`. -/
def constantDatabase (rowCount affected : Int) : Database :=
  ⟨fun _ => .ok [], fun _ => .ok rowCount, fun _ => .ok affected, fun _ => .ok "",
    fun _ => .ok .null, fun _ => .ok []⟩

/-- The filter clause `age BETWEEN [18, 65]`. -/
def betweenClause : WhereClause := ⟨"age", "BETWEEN", .array [.number 18, .number 65]⟩

/-- A filter clause whose column does not pass the sanitizer. -/
def droppedClause : WhereClause := ⟨"id;", "=", .number 7⟩

/-! ## `QueryInsert` and squirrel's insert builder -/

/-- The fields of squirrel's `insertData` that `QueryInsert` sets: the table,
the column names and the rows of values. -/
structure InsertBuilder where
  PlaceholderFormat : PlaceholderFormat
  Into : String
  Columns : List String
  Values : List (List Value)

/-- `InsertBuilder.Columns`: the names are appended to the column list. -/
def InsertBuilder.addColumns (b : InsertBuilder) (columns : List String) : InsertBuilder :=
  { b with Columns := b.Columns ++ columns }

/-- `InsertBuilder.Values`: the arguments are appended as one row. -/
def InsertBuilder.addValues (b : InsertBuilder) (values : List Value) : InsertBuilder :=
  { b with Values := b.Values ++ [values] }

/-- `insertData.appendValuesToSQL`: the text after `VALUES ` and the bound
parameters; every value is a request value, rendered as `?`. -/
def appendValuesToSQL (rows : List (List Value)) : String × List Value :=
  (stringsJoin "," (rows.map (fun row => "(" ++ stringsJoin "," (row.map (fun _ => "?")) ++ ")")),
    rows.foldl (fun args row => args ++ row) [])

/-- `insertData.ToSql`. -/
def InsertBuilder.ToSql (d : InsertBuilder) : Except String Statement :=
  if d.Into.length == 0 then .error "insert statements must specify a table"
  else if d.Values.length == 0 then
    .error "insert statements must have at least one set of values or select clause"
  else
    let sql := "INSERT " ++ "INTO " ++ d.Into ++ " "
    let sql :=
      if d.Columns.length > 0 then sql ++ "(" ++ stringsJoin "," d.Columns ++ ") " else sql
    let (valuesSql, args) := appendValuesToSQL d.Values
    let sql := sql ++ "VALUES " ++ valuesSql
    .ok ⟨d.PlaceholderFormat.ReplacePlaceholders sql, args⟩

/-- `QueryInsertInput` of `types.go`; `Data` lists the entries of the map in the
order the `range` loop of the handler visits them. -/
structure QueryInsertInput where
  Database : String
  Table : String
  Schema : String
  Data : List (String × Value)

/-- The `for col, val := range input.Data` loop of `QueryInsert`: one pass
appends the sanitized key to `columns` and the value to `values`. -/
def insertColumnsValues : List (String × Value) → List String → List Value →
    List String × List Value
  | [], columns, values => (columns, values)
  | (col, val) :: rest, columns, values =>
    insertColumnsValues rest (columns ++ [sanitizeIdentifier col]) (values ++ [val])

/-- The `INSERT` builder of `QueryInsert`. -/
def insertQuery (cfg : Config) (input : QueryInsertInput) : InsertBuilder :=
  let tableName := qualifiedTableName cfg input.Database input.Table
  let query : InsertBuilder := ⟨cfg.qb, tableName, [], []⟩
  let (columns, values) := insertColumnsValues input.Data [] []
  (query.addColumns columns).addValues values

/-- `QueryInsert` of `query_tools.go`; the result is the number of affected
rows. -/
def QueryInsert (cfg : Config) (db : Database) (input : QueryInsertInput) : Run Int :=
  if cfg.readOnly then ⟨[], .error .readOnly⟩
  else
    match validateDatabase cfg input.Database with
    | .error err => ⟨[], .error err⟩
    | .ok _ =>
      match (insertQuery cfg input).ToSql with
      | .error err => ⟨[], .error (.buildFailed err)⟩
      | .ok stmt =>
        match db.exec stmt with
        | .error err => ⟨[stmt], .error (.execFailed err)⟩
        | .ok affected => ⟨[stmt], .ok affected⟩

/-- The example configuration in read-only mode, with raw queries allowed or
not. -/
def readOnlyConfig (dbType : DbType) (allowRawQuery : Bool) : Config :=
  ⟨dbType, ["shop"], true, allowRawQuery, 1000, 1, 1, fun c => c⟩

/-! ## `QueryRaw` -/

/-- Go `strings.HasPrefix`. -/
def HasPrefix (s pfx : String) : Bool := pfx.data.isPrefixOf s.data

/-- `QueryRawInput` of `types.go`. -/
structure QueryRawInput where
  Database : String
  Query : String
  Params : List Value

/-- What `QueryRaw` reports on success: the scanned rows of a SELECT, or the
number of affected rows. -/
inductive RawResult where
  | rows (rows : List (List (String × Value)))
  | affected (count : Int)

/-- The statement ``USE `database` `` with which the MySQL branches switch the
connection to the database of the request. -/
def useStatement (database : String) : Statement := ⟨"USE `" ++ database ++ "`", []⟩

/-- The part of `QueryRaw` after the database switch: `isSelect`, the SELECT
branch, the read-only test and the exec branch. `issued` holds the statements
issued so far. -/
def QueryRawDispatch (cfg : Config) (db : Database) (input : QueryRawInput)
    (issued : List Statement) : Run RawResult :=
  let isSelect := HasPrefix (ToUpper cfg.upperTable (TrimSpace input.Query)) "SELECT"
  if isSelect then
    match db.query ⟨input.Query, input.Params⟩ with
    | .error err => ⟨issued ++ [⟨input.Query, input.Params⟩], .error (.execFailed err)⟩
    | .ok rows => ⟨issued ++ [⟨input.Query, input.Params⟩], .ok (.rows rows)⟩
  else if cfg.readOnly then ⟨issued, .error .readOnly⟩
  else
    match db.exec ⟨input.Query, input.Params⟩ with
    | .error err => ⟨issued ++ [⟨input.Query, input.Params⟩], .error (.execFailed err)⟩
    | .ok affected => ⟨issued ++ [⟨input.Query, input.Params⟩], .ok (.affected affected)⟩

/-- `QueryRaw` of `query_tools.go`. -/
def QueryRaw (cfg : Config) (db : Database) (input : QueryRawInput) : Run RawResult :=
  if !cfg.allowRawQuery then ⟨[], .error .rawQueryBlocked⟩
  else
    match validateDatabase cfg input.Database with
    | .error err => ⟨[], .error err⟩
    | .ok _ =>
      if cfg.dbType = .mysql then
        match db.exec (useStatement input.Database) with
        | .error err =>
          ⟨[useStatement input.Database], .error (.switchDatabaseFailed input.Database err)⟩
        | .ok _ => QueryRawDispatch cfg db input [useStatement input.Database]
      else QueryRawDispatch cfg db input []

/-- A database on which every executed statement fails with `cause`; the
catalog reports the routine kind `kind`. -/
def failingExecDatabase (kind cause : String) : Database :=
  ⟨fun _ => .ok [], fun _ => .ok 0, fun _ => .error cause, fun _ => .ok kind,
    fun _ => .ok .null, fun _ => .ok []⟩

/-- A database on which every statement succeeds; the catalog reports the
routine kind `kind`. -/
def routineDatabase (kind : String) : Database :=
  ⟨fun _ => .ok [], fun _ => .ok 0, fun _ => .ok 0, fun _ => .ok kind,
    fun _ => .ok .null, fun _ => .ok []⟩

/-! ## The catalog query texts of `metadata_tools.go` and `function_tools.go` -/

/-- The text of `columnsQuery` of `getPostgreSQLTableSchema`. -/
def columnsQueryPostgres : String :=
  "\n" ++
  "\t\tSELECT \n" ++
  "\t\t\tcolumn_name, data_type, is_nullable, column_default,\n" ++
  "\t\t\tcharacter_maximum_length, numeric_precision, numeric_scale\n" ++
  "\t\tFROM information_schema.columns\n" ++
  "\t\tWHERE table_catalog = $1 AND table_schema = $2 AND table_name = $3\n" ++
  "\t\tORDER BY ordinal_position"

/-- The text of `fkQuery` of `getPostgreSQLTableSchema`. -/
def fkQueryPostgres : String :=
  "\n" ++
  "\t\tSELECT\n" ++
  "\t\t\tkcu.column_name,\n" ++
  "\t\t\tccu.table_schema AS foreign_schema,\n" ++
  "\t\t\tccu.table_name AS foreign_table,\n" ++
  "\t\t\tccu.column_name AS foreign_column\n" ++
  "\t\tFROM information_schema.table_constraints AS tc\n" ++
  "\t\tJOIN information_schema.key_column_usage AS kcu\n" ++
  "\t\t\tON tc.constraint_name = kcu.constraint_name\n" ++
  "\t\t\tAND tc.table_schema = kcu.table_schema\n" ++
  "\t\tJOIN information_schema.constraint_column_usage AS ccu\n" ++
  "\t\t\tON ccu.constraint_name = tc.constraint_name\n" ++
  "\t\t\tAND ccu.table_schema = tc.table_schema\n" ++
  "\t\tWHERE tc.constraint_type = 'FOREIGN KEY'\n" ++
  "\t\t\tAND tc.table_schema = $1\n" ++
  "\t\t\tAND tc.table_name = $2"

/-- The text of `indexQuery` of `getPostgreSQLTableSchema`. -/
def indexQueryPostgres : String :=
  "\n" ++
  "\t\tSELECT indexname, indexdef\n" ++
  "\t\tFROM pg_indexes\n" ++
  "\t\tWHERE schemaname = $1 AND tablename = $2"

/-- The text of `columnsQuery` of `getMySQLTableSchema`. -/
def columnsQueryMySQL : String :=
  "\n" ++
  "\t\tSELECT \n" ++
  "\t\t\tCOLUMN_NAME, DATA_TYPE, IS_NULLABLE, COLUMN_DEFAULT,\n" ++
  "\t\t\tCOLUMN_KEY, EXTRA, CHARACTER_MAXIMUM_LENGTH,\n" ++
  "\t\t\tNUMERIC_PRECISION, NUMERIC_SCALE\n" ++
  "\t\tFROM INFORMATION_SCHEMA.COLUMNS\n" ++
  "\t\tWHERE TABLE_SCHEMA = ? AND TABLE_NAME = ?\n" ++
  "\t\tORDER BY ORDINAL_POSITION"

/-- The text of `fkQuery` of `getMySQLTableSchema`. -/
def fkQueryMySQL : String :=
  "\n" ++
  "\t\tSELECT\n" ++
  "\t\t\tCOLUMN_NAME,\n" ++
  "\t\t\tREFERENCED_TABLE_SCHEMA,\n" ++
  "\t\t\tREFERENCED_TABLE_NAME,\n" ++
  "\t\t\tREFERENCED_COLUMN_NAME\n" ++
  "\t\tFROM INFORMATION_SCHEMA.KEY_COLUMN_USAGE\n" ++
  "\t\tWHERE TABLE_SCHEMA = ?\n" ++
  "\t\t\tAND TABLE_NAME = ?\n" ++
  "\t\t\tAND REFERENCED_TABLE_NAME IS NOT NULL"

/-- The text of `query` of the postgres branch of `GetSequences`. -/
def sequencesQueryPostgres : String :=
  "\n" ++
  "\t\t\tSELECT sequence_name, data_type, start_value, minimum_value, maximum_value, increment\n" ++
  "\t\t\tFROM information_schema.sequences\n" ++
  "\t\t\tWHERE sequence_catalog = $1 AND sequence_schema = $2\n" ++
  "\t\t\tORDER BY sequence_name"

/-- The text of `query` of the MySQL branch of `GetSequences`. -/
def autoIncrementQueryMySQL : String :=
  "\n" ++
  "\t\t\tSELECT \n" ++
  "\t\t\t\tTABLE_NAME, COLUMN_NAME, DATA_TYPE, COLUMN_DEFAULT, EXTRA\n" ++
  "\t\t\tFROM INFORMATION_SCHEMA.COLUMNS\n" ++
  "\t\t\tWHERE TABLE_SCHEMA = ? AND EXTRA LIKE '%auto_increment%'\n" ++
  "\t\t\tORDER BY TABLE_NAME, ORDINAL_POSITION"

/-- The text of `query` of `GetCustomTypes`. -/
def customTypesQuery : String :=
  "\n" ++
  "\t\tSELECT \n" ++
  "\t\t\tt.typname as type_name,\n" ++
  "\t\t\tt.typtype as type_kind,\n" ++
  "\t\t\tCASE t.typtype\n" ++
  "\t\t\t\tWHEN 'e' THEN 'enum'\n" ++
  "\t\t\t\tWHEN 'c' THEN 'composite'\n" ++
  "\t\t\t\tWHEN 'd' THEN 'domain'\n" ++
  "\t\t\t\tWHEN 'b' THEN 'base'\n" ++
  "\t\t\t\tELSE 'other'\n" ++
  "\t\t\tEND as type_category\n" ++
  "\t\tFROM pg_type t\n" ++
  "\t\tJOIN pg_namespace n ON n.oid = t.typnamespace\n" ++
  "\t\tWHERE n.nspname = $1 AND t.typtype IN ('e', 'c', 'd')\n" ++
  "\t\tORDER BY t.typname"

/-- The text of `enumQuery` of `GetCustomTypes`. -/
def enumQuery : String :=
  "\n" ++
  "\t\t\t\tSELECT enumlabel\n" ++
  "\t\t\t\tFROM pg_enum\n" ++
  "\t\t\t\tWHERE enumtypid = (SELECT oid FROM pg_type WHERE typname = $1)\n" ++
  "\t\t\t\tORDER BY enumsortorder"

/-- The text of `query` of the postgres branch of `GetFunctions`. -/
def getFunctionsQueryPostgres : String :=
  "\n" ++
  "\t\t\tSELECT \n" ++
  "\t\t\t\tp.proname as name,\n" ++
  "\t\t\t\tCASE p.prokind\n" ++
  "\t\t\t\t\tWHEN 'f' THEN 'function'\n" ++
  "\t\t\t\t\tWHEN 'p' THEN 'procedure'\n" ++
  "\t\t\t\t\tWHEN 'a' THEN 'aggregate'\n" ++
  "\t\t\t\t\tWHEN 'w' THEN 'window'\n" ++
  "\t\t\t\tEND as type,\n" ++
  "\t\t\t\tpg_catalog.pg_get_function_arguments(p.oid) as arguments,\n" ++
  "\t\t\t\tpg_catalog.pg_get_function_result(p.oid) as return_type,\n" ++
  "\t\t\t\tl.lanname as language\n" ++
  "\t\t\tFROM pg_proc p\n" ++
  "\t\t\tJOIN pg_namespace n ON n.oid = p.pronamespace\n" ++
  "\t\t\tJOIN pg_language l ON l.oid = p.prolang\n" ++
  "\t\t\tWHERE n.nspname = $1\n" ++
  "\t\t\tORDER BY p.proname"

/-- The text of `query` of the MySQL branch of `GetFunctions`. -/
def getFunctionsQueryMySQL : String :=
  "\n" ++
  "\t\t\tSELECT \n" ++
  "\t\t\t\tROUTINE_NAME as name,\n" ++
  "\t\t\t\tROUTINE_TYPE as type,\n" ++
  "\t\t\t\tDTD_IDENTIFIER as return_type,\n" ++
  "\t\t\t\tCREATED,\n" ++
  "\t\t\t\tLAST_ALTERED\n" ++
  "\t\t\tFROM INFORMATION_SCHEMA.ROUTINES\n" ++
  "\t\t\tWHERE ROUTINE_SCHEMA = ?\n" ++
  "\t\t\tORDER BY ROUTINE_NAME"

/-- The text of `query` of the postgres branch of `GetFunctionSource`. -/
def getFunctionSourceQueryPostgres : String :=
  "\n" ++
  "\t\t\tSELECT \n" ++
  "\t\t\t\tp.proname as name,\n" ++
  "\t\t\t\tCASE p.prokind\n" ++
  "\t\t\t\t\tWHEN 'f' THEN 'function'\n" ++
  "\t\t\t\t\tWHEN 'p' THEN 'procedure'\n" ++
  "\t\t\t\tEND as type,\n" ++
  "\t\t\t\tpg_catalog.pg_get_functiondef(p.oid) as definition\n" ++
  "\t\t\tFROM pg_proc p\n" ++
  "\t\t\tJOIN pg_namespace n ON n.oid = p.pronamespace\n" ++
  "\t\t\tWHERE n.nspname = $1 AND p.proname = $2"

/-- The text of `query` of the MySQL branch of `GetFunctionSource`. -/
def getFunctionSourceQueryMySQL : String :=
  "\n" ++
  "\t\t\tSELECT \n" ++
  "\t\t\t\tROUTINE_NAME as name,\n" ++
  "\t\t\t\tROUTINE_TYPE as type,\n" ++
  "\t\t\t\tROUTINE_DEFINITION as definition,\n" ++
  "\t\t\t\tROUTINE_SCHEMA\n" ++
  "\t\t\tFROM INFORMATION_SCHEMA.ROUTINES\n" ++
  "\t\t\tWHERE ROUTINE_SCHEMA = ? AND ROUTINE_NAME = ?"

/-- The text of `typeQuery` of the postgres branch of `ExecuteFunction`. -/
def typeQueryPostgres : String :=
  "\n" ++
  "\t\t\tSELECT prokind FROM pg_proc p\n" ++
  "\t\t\tJOIN pg_namespace n ON n.oid = p.pronamespace\n" ++
  "\t\t\tWHERE n.nspname = $1 AND p.proname = $2"

/-- The text of `typeQuery` of the MySQL branch of `ExecuteFunction`. -/
def typeQueryMySQL : String :=
  "\n" ++
  "\t\t\tSELECT ROUTINE_TYPE as type\n" ++
  "\t\t\tFROM INFORMATION_SCHEMA.ROUTINES\n" ++
  "\t\t\tWHERE ROUTINE_SCHEMA = ? AND ROUTINE_NAME = ?"

/-! ## `function_tools.go`: `ExecuteFunction` -/

/-- `ExecuteFunctionInput` of `types.go`. -/
structure ExecuteFunctionInput where
  Database : String
  Schema : String
  Name : String
  Params : List Value

/-- What `ExecuteFunction` formats on success: the scanned rows of a procedure
call or the scanned result of a function call. -/
inductive ExecuteResult where
  | procedure (rows : List (List (String × Value)))
  | function (funcResult : Value)

/-- The placeholder slice of the postgres branch: `$1`, ..., `$n`. -/
def dollarPlaceholders (n : Nat) : List String :=
  (List.range n).map (fun i => "$" ++ toString (i + 1))

/-- The placeholder slice of the MySQL branch: `n` question marks. -/
def questionPlaceholders (n : Nat) : List String :=
  (List.range n).map (fun _ => "?")

/-- The schema the postgres branches use: `public` when the request names
none. -/
def schemaOrPublic (schema : String) : String :=
  if schema = "" then "public" else schema

/-- The last step of both branches of `ExecuteFunction`: a procedure is called
with `CALL name(params)` through `QueryContext`, anything else with
`SELECT name(params) as result` through `QueryRowContext`; the error of
`scanRows`, which the handler discards, is not part of the model. `issued`
holds the statements issued so far. -/
def invokeRoutine (db : Database) (issued : List Statement) (isProcedure : Bool)
    (name paramStr : String) (params : List Value) : Run ExecuteResult :=
  if isProcedure then
    let query := "CALL " ++ name ++ "(" ++ paramStr ++ ")"
    match db.query ⟨query, params⟩ with
    | .error err => ⟨issued ++ [⟨query, params⟩], .error (.procedureFailed err)⟩
    | .ok rows => ⟨issued ++ [⟨query, params⟩], .ok (.procedure rows)⟩
  else
    let query := "SELECT " ++ name ++ "(" ++ paramStr ++ ") as result"
    match db.queryRowValue ⟨query, params⟩ with
    | .error err => ⟨issued ++ [⟨query, params⟩], .error (.functionFailed err)⟩
    | .ok funcResult => ⟨issued ++ [⟨query, params⟩], .ok (.function funcResult)⟩

/-- The type query of `ExecuteFunction` with its arguments. -/
def typeStatement (cfg : Config) (input : ExecuteFunctionInput) : Statement :=
  if cfg.dbType = .postgres then
    ⟨typeQueryPostgres, [.string (schemaOrPublic input.Schema), .string input.Name]⟩
  else ⟨typeQueryMySQL, [.string input.Database, .string input.Name]⟩

/-- `ExecuteFunction` of `function_tools.go`. -/
def ExecuteFunction (cfg : Config) (db : Database) (input : ExecuteFunctionInput) :
    Run ExecuteResult :=
  match validateDatabase cfg input.Database with
  | .error err => ⟨[], .error err⟩
  | .ok _ =>
    if cfg.dbType = .postgres then
      let schema := schemaOrPublic input.Schema
      match db.queryRowString (typeStatement cfg input) with
      | .error _ => ⟨[typeStatement cfg input], .error (.routineNotFound input.Name schema)⟩
      | .ok prokind =>
        let isProcedure := decide (prokind = "p")
        if isProcedure && cfg.readOnly then
          ⟨[typeStatement cfg input], .error .proceduresNotAllowed⟩
        else
          let paramStr := stringsJoin ", " (dollarPlaceholders input.Params.length)
          let qualifiedName := schema ++ "." ++ input.Name
          invokeRoutine db [typeStatement cfg input] isProcedure qualifiedName paramStr
            input.Params
    else
      match db.queryRowString (typeStatement cfg input) with
      | .error _ =>
        ⟨[typeStatement cfg input], .error (.routineNotFound input.Name input.Database)⟩
      | .ok routineType =>
        let isProcedure := decide (routineType = "PROCEDURE")
        if isProcedure && cfg.readOnly then
          ⟨[typeStatement cfg input], .error .proceduresNotAllowed⟩
        else
          match db.exec (useStatement input.Database) with
          | .error err =>
            ⟨[typeStatement cfg input, useStatement input.Database], .error (.driver err)⟩
          | .ok _ =>
            let paramStr := stringsJoin ", " (questionPlaceholders input.Params.length)
            invokeRoutine db [typeStatement cfg input, useStatement input.Database] isProcedure
              input.Name paramStr input.Params

/-- Whether the kind the type query of `ExecuteFunction` reports makes the
target a procedure: `p` for postgres, `PROCEDURE` for MySQL. -/
def resolvesToProcedure (cfg : Config) (kind : String) : Bool :=
  if cfg.dbType = .postgres then decide (kind = "p") else decide (kind = "PROCEDURE")

/-- The statement with which `ExecuteFunction` invokes its target: `CALL` for a
procedure, `SELECT ... as result` for anything else; the name is qualified with
the schema and the placeholders are numbered under postgres. -/
def invocationStatement (cfg : Config) (input : ExecuteFunctionInput) (isProcedure : Bool) :
    Statement :=
  let name :=
    if cfg.dbType = .postgres then schemaOrPublic input.Schema ++ "." ++ input.Name
    else input.Name
  let paramStr :=
    if cfg.dbType = .postgres then stringsJoin ", " (dollarPlaceholders input.Params.length)
    else stringsJoin ", " (questionPlaceholders input.Params.length)
  if isProcedure then ⟨"CALL " ++ name ++ "(" ++ paramStr ++ ")", input.Params⟩
  else ⟨"SELECT " ++ name ++ "(" ++ paramStr ++ ") as result", input.Params⟩

/-! ## `metadata_tools.go` and the catalog listings of `function_tools.go`

The handlers format a text from the rows they scan; the model keeps the
scanned rows and the statements issued, not the layout of the text. -/

/-- What a catalog handler formats its text from: the scanned rows of its
queries, in the order of the queries (no rows for a query whose error the
handler skips), or a fixed message. -/
inductive MetadataResult where
  | rows (sets : List (List ScannedRow))
  | text (message : String)

/-- `GetTablesInput` of `types.go`. -/
structure GetTablesInput where
  Database : String
  Schema : String

/-- `GetTableSchemaInput` of `types.go`. -/
structure GetTableSchemaInput where
  Database : String
  Table : String
  Schema : String

/-- `GetSequencesInput` of `types.go`. -/
structure GetSequencesInput where
  Database : String
  Schema : String

/-- `GetCustomTypesInput` of `types.go`. -/
structure GetCustomTypesInput where
  Database : String
  Schema : String

/-- `GetFunctionsInput` of `types.go`. -/
structure GetFunctionsInput where
  Database : String
  Schema : String

/-- `GetFunctionSourceInput` of `types.go`. -/
structure GetFunctionSourceInput where
  Database : String
  Schema : String
  Name : String

/-- The rows of a query whose error the handler skips: none on error. -/
def rowsOrNone (answer : Except String (List ScannedRow)) : List ScannedRow :=
  match answer with
  | .error _ => []
  | .ok rows => rows

/-- The common tail of `GetSequences`, `GetFunctions` and `GetFunctionSource`:
one catalog query; the driver's error is returned as it is. -/
def catalogListing (db : Database) (stmt : Statement) : Run MetadataResult :=
  match db.queryScan stmt with
  | .error err => ⟨[stmt], .error (.driver err)⟩
  | .ok rows => ⟨[stmt], .ok (.rows [rows])⟩

/-- `GetTables` of `metadata_tools.go`: a failing `rows.Scan` ends the call with
its error. -/
def GetTables (cfg : Config) (db : Database) (input : GetTablesInput) : Run MetadataResult :=
  match validateDatabase cfg input.Database with
  | .error err => ⟨[], .error err⟩
  | .ok _ =>
    let stmt : Statement :=
      if cfg.dbType = .postgres then
        ⟨"SELECT tablename FROM pg_tables WHERE schemaname = $1 ORDER BY tablename",
          [.string (schemaOrPublic input.Schema)]⟩
      else ⟨"SHOW TABLES FROM `" ++ input.Database ++ "`", []⟩
    match db.queryScan stmt with
    | .error err => ⟨[stmt], .error (.getTablesFailed err)⟩
    | .ok rows =>
      match rows.findSome? (fun row => row.scanErr) with
      | some err => ⟨[stmt], .error (.driver err)⟩
      | none => ⟨[stmt], .ok (.rows [rows])⟩

/-- `getPostgreSQLTableSchema`: the columns query, whose error becomes the text
`Error: ...`, then the foreign-key query and the index query, whose errors are
skipped. -/
def getPostgreSQLTableSchema (db : Database) (input : GetTableSchemaInput) :
    List Statement × MetadataResult :=
  let schema := schemaOrPublic input.Schema
  let columns : Statement :=
    ⟨columnsQueryPostgres, [.string input.Database, .string schema, .string input.Table]⟩
  let fk : Statement := ⟨fkQueryPostgres, [.string schema, .string input.Table]⟩
  let index : Statement := ⟨indexQueryPostgres, [.string schema, .string input.Table]⟩
  match db.queryScan columns with
  | .error err => ([columns], .text ("Error: " ++ err))
  | .ok rows =>
    ([columns, fk, index],
      .rows [rows, rowsOrNone (db.queryScan fk), rowsOrNone (db.queryScan index)])

/-- `getMySQLTableSchema`: as for postgres, with the MySQL catalog queries and
`SHOW INDEX`. -/
def getMySQLTableSchema (db : Database) (input : GetTableSchemaInput) :
    List Statement × MetadataResult :=
  let columns : Statement :=
    ⟨columnsQueryMySQL, [.string input.Database, .string input.Table]⟩
  let fk : Statement := ⟨fkQueryMySQL, [.string input.Database, .string input.Table]⟩
  let index : Statement :=
    ⟨"SHOW INDEX FROM `" ++ input.Database ++ "`.`" ++ input.Table ++ "`", []⟩
  match db.queryScan columns with
  | .error err => ([columns], .text ("Error: " ++ err))
  | .ok rows =>
    ([columns, fk, index],
      .rows [rows, rowsOrNone (db.queryScan fk), rowsOrNone (db.queryScan index)])

/-- `GetTableSchema` of `metadata_tools.go`. -/
def GetTableSchema (cfg : Config) (db : Database) (input : GetTableSchemaInput) :
    Run MetadataResult :=
  match validateDatabase cfg input.Database with
  | .error err => ⟨[], .error err⟩
  | .ok _ =>
    let result :=
      if cfg.dbType = .postgres then getPostgreSQLTableSchema db input
      else getMySQLTableSchema db input
    ⟨result.1, .ok result.2⟩

/-- `GetSequences` of `metadata_tools.go`. -/
def GetSequences (cfg : Config) (db : Database) (input : GetSequencesInput) :
    Run MetadataResult :=
  match validateDatabase cfg input.Database with
  | .error err => ⟨[], .error err⟩
  | .ok _ =>
    if cfg.dbType = .postgres then
      catalogListing db
        ⟨sequencesQueryPostgres, [.string input.Database, .string (schemaOrPublic input.Schema)]⟩
    else catalogListing db ⟨autoIncrementQueryMySQL, [.string input.Database]⟩

/-- The enum queries of `GetCustomTypes`: one for every scanned row whose second
destination, the type kind, is `e`, with the first destination, the type
name, as argument. -/
def enumStatements (rows : List ScannedRow) : List Statement :=
  rows.filterMap (fun row =>
    if row.dests.getD 1 "" = "e" then
      some (⟨enumQuery, [.string (row.dests.getD 0 "")]⟩ : Statement)
    else none)

/-- `GetCustomTypes` of `metadata_tools.go`: the dialect test comes first and
answers with a message, not an error, when the server is not postgres. -/
def GetCustomTypes (cfg : Config) (db : Database) (input : GetCustomTypesInput) :
    Run MetadataResult :=
  if cfg.dbType ≠ .postgres then
    ⟨[], .ok (.text "Custom types are only supported in PostgreSQL")⟩
  else
    match validateDatabase cfg input.Database with
    | .error err => ⟨[], .error err⟩
    | .ok _ =>
      let stmt : Statement := ⟨customTypesQuery, [.string (schemaOrPublic input.Schema)]⟩
      match db.queryScan stmt with
      | .error err => ⟨[stmt], .error (.driver err)⟩
      | .ok rows =>
        ⟨stmt :: enumStatements rows,
          .ok (.rows (rows :: (enumStatements rows).map (fun s => rowsOrNone (db.queryScan s))))⟩

/-- `GetFunctions` of `function_tools.go`. -/
def GetFunctions (cfg : Config) (db : Database) (input : GetFunctionsInput) :
    Run MetadataResult :=
  match validateDatabase cfg input.Database with
  | .error err => ⟨[], .error err⟩
  | .ok _ =>
    if cfg.dbType = .postgres then
      catalogListing db ⟨getFunctionsQueryPostgres, [.string (schemaOrPublic input.Schema)]⟩
    else catalogListing db ⟨getFunctionsQueryMySQL, [.string input.Database]⟩

/-- `GetFunctionSource` of `function_tools.go`. -/
def GetFunctionSource (cfg : Config) (db : Database) (input : GetFunctionSourceInput) :
    Run MetadataResult :=
  match validateDatabase cfg input.Database with
  | .error err => ⟨[], .error err⟩
  | .ok _ =>
    if cfg.dbType = .postgres then
      catalogListing db
        ⟨getFunctionSourceQueryPostgres,
          [.string (schemaOrPublic input.Schema), .string input.Name]⟩
    else
      catalogListing db
        ⟨getFunctionSourceQueryMySQL, [.string input.Database, .string input.Name]⟩

/-- The fixed operator table of the specification: the operators the `switch`
of the predicate compiler names, `BETWEEN` included. -/
def fixedOperatorTable : List String :=
  ["=", "!=", "<>", ">", ">=", "<", "<=", "LIKE", "ILIKE", "IN", "NOT IN", "IS NULL",
    "IS NOT NULL", "BETWEEN"]

/-! ## The two placeholder spellings side by side -/

/-- The text with its k-th question mark replaced by `$k`, as the
specification words the Postgres spelling; the next number is `i + 1`. -/
def dollarNumbered : List Char → Nat → List Char
  | [], _ => []
  | c :: rest, i =>
    if c = '?' then ("$" ++ toString (i + 1)).data ++ dollarNumbered rest (i + 1)
    else c :: dollarNumbered rest i

/-- Whether two question marks stand side by side somewhere in the text. -/
def hasDoubledQuestion : List Char → Bool
  | [] => false
  | [_] => false
  | c :: d :: rest => (c == '?' && d == '?') || hasDoubledQuestion (d :: rest)

/-! ## `db.go`: the numeric limits from the environment -/

/-- The `SkipSpace` of package `fmt` as `Sscanf` runs it in front of a verb: it
drops leading space characters and fails on a newline; `none` is the scan
error. -/
def scanfSkipSpace : List Char → Option (List Char)
  | [] => some []
  | r :: rest =>
    if r = '\n' then none
    else if unicodeIsSpace r then scanfSkipSpace rest
    else some (r :: rest)

/-- The digits `fmt` accepts for the verb `%d`. -/
def isDecimalDigit (c : Char) : Bool := decide ('0' ≤ c) && decide (c ≤ '9')

/-- The value of a run of decimal digits. -/
def digitsValue (digits : List Char) : Nat :=
  digits.foldl (fun n c => 10 * n + (c.toNat - '0'.toNat)) 0

/-- Go `fmt.Sscanf(value, "%d", &intValue)` for a 64-bit `int`: after the
leading spaces an optional sign and a non-empty run of decimal digits are read
(what follows them is left unread) and parsed with `strconv.ParseInt`; the
result is the integer stored, or `none` when `Sscanf` returns an error (no
input, no digit, a value outside the 64-bit range). -/
def sscanfInt (value : String) : Option Int :=
  match scanfSkipSpace value.data with
  | none => none
  | some [] => none
  | some (c :: rest) =>
    let negative := decide (c = '-')
    let body := if c = '-' ∨ c = '+' then rest else c :: rest
    let digits := body.takeWhile isDecimalDigit
    if digits.length = 0 then none
    else
      let magnitude : Int := (digitsValue digits : Nat)
      let intValue := if negative then -magnitude else magnitude
      if -(2 ^ 63) ≤ intValue ∧ intValue < 2 ^ 63 then some intValue else none

/-- `getEnvInt` of `db.go`; `getenv` is `os.Getenv`, which yields the empty
string for a variable that is not set. -/
def getEnvInt (getenv : String → String) (key : String) (defaultValue : Int) : Int :=
  let value := getenv key
  if value ≠ "" then
    match sscanfInt value with
    | some intValue => intValue
    | none => defaultValue
  else defaultValue

/-- The value `initDatabase` gives `maxSelectLimit`. -/
def initMaxSelectLimit (getenv : String → String) : Int :=
  getEnvInt getenv "MAX_SELECT_LIMIT" 1000

/-- The value `initDatabase` gives `maxUpdateLimit`. -/
def initMaxUpdateLimit (getenv : String → String) : Int :=
  getEnvInt getenv "MAX_UPDATE_LIMIT" 1

/-- The value `initDatabase` gives `maxDeleteLimit`. -/
def initMaxDeleteLimit (getenv : String → String) : Int :=
  getEnvInt getenv "MAX_DELETE_LIMIT" 1

/-- An environment in which only `MAX_SELECT_LIMIT` is set, to `value`. -/
def selectLimitEnvironment (value : String) : String → String :=
  fun key => if key = "MAX_SELECT_LIMIT" then value else ""

/-! ## `helpers.go`: `scanRows` -/

/-- What `rows.Scan` stores in an `interface{}` destination: `nil`, an `int64`,
a `float64` (by its bits), a `bool`, a byte slice, a string or a `time.Time`
(by its nanoseconds). Byte slices and strings are given by their bytes: the
string made from a byte slice has the bytes of the slice. -/
inductive DriverValue where
  | null
  | int64 (n : Int)
  | float64 (bits : Nat)
  | bool (b : Bool)
  | bytes (b : List Nat)
  | string (b : List Nat)
  | time (nanoseconds : Int)
  deriving DecidableEq

/-- A `*sql.Rows`: the answer of `rows.Columns()`, the outcome of `rows.Scan`
for every row `rows.Next()` announces, and the final `rows.Err()`. -/
structure SqlRows where
  columns : Except String (List String)
  scans : List (Except String (List DriverValue))
  err : Option String

/-- A Go `map[string]interface{}`, by what it holds under every key. -/
abbrev RowMap := String → Option DriverValue

/-- The conversion in the inner loop of `scanRows`: a byte slice becomes the
string of its bytes, every other value is kept. -/
def normalizeValue : DriverValue → DriverValue
  | .bytes b => .string b
  | val => val

/-- The loop `for i, col := range columns` of `scanRows`: `row[col]` is set to
the converted `values[i]`; `values` has a `nil` wherever `rows.Scan` stored
nothing. -/
def rowToMap : List String → Nat → List DriverValue → RowMap → RowMap
  | [], _, _, row => row
  | col :: columns, i, values, row =>
    rowToMap columns (i + 1) values
      (fun key => if key = col then some (normalizeValue (values.getD i .null)) else row key)

/-- What `scanRows` returns: the result slice and the error. -/
structure ScanRowsResult where
  results : List RowMap
  err : Option String

/-- The loop `for rows.Next()` of `scanRows`: a failing `rows.Scan` returns
`nil` and its error; at the end the results are returned with `rows.Err()`. -/
def scanRowsLoop (columns : List String) (finalErr : Option String) :
    List (Except String (List DriverValue)) → List RowMap → ScanRowsResult
  | [], results => ⟨results, finalErr⟩
  | .error err :: _, _ => ⟨[], some err⟩
  | .ok values :: rest, results =>
    scanRowsLoop columns finalErr rest (results ++ [rowToMap columns 0 values (fun _ => none)])

/-- `scanRows` of `helpers.go`. -/
def scanRows (rows : SqlRows) : ScanRowsResult :=
  match rows.columns with
  | .error err => ⟨[], some err⟩
  | .ok columns => scanRowsLoop columns rows.err rows.scans []

/-- The predicate of a statement by itself: the text and the parameters
`appendToSql` writes for the where parts, joined by ` AND `, before any
placeholder replacement. -/
def wherePredicate (nodes : List Sqlizer) : Except String (String × List Value) :=
  appendToSql " AND " (nodes.map Sqlizer.ToSql) 0 "" []

/-! ## Theorems: the identifier sanitizer -/

theorem sanitizeRejects_eq_not_allowed (c : Char) :
    sanitizeRejects c = !specAllowedChar c := by
  simp only [sanitizeRejects, specAllowedChar, ge_iff_le, Char.le_def, UInt32.le_def,
    Bool.not_and, Bool.not_or, bne, Char.toNat]
  rfl

theorem sanitizeLoop_eq (u : String) (l : List Char) :
    sanitizeLoop u l = if l.all specAllowedChar then u else "" := by
  induction l with
  | nil => simp [sanitizeLoop]
  | cons c rest ih =>
    simp only [sanitizeLoop, sanitizeRejects_eq_not_allowed, List.all_cons, ih]
    by_cases h : specAllowedChar c = true <;> simp [h]

theorem mem_dropWhile_of_not {p : Char → Bool} {c : Char} (hp : p c = false) :
    ∀ l : List Char, c ∈ l → c ∈ l.dropWhile p
  | [], h => by simp at h
  | x :: xs, h => by
    by_cases hx : p x = true
    · have hne : c ≠ x := by
        rintro rfl
        rw [hp] at hx
        exact Bool.false_ne_true hx
      rw [List.dropWhile_cons_of_pos hx]
      exact mem_dropWhile_of_not hp xs ((List.mem_cons.mp h).resolve_left hne)
    · rw [List.dropWhile_cons_of_neg hx]
      exact h

theorem mem_rdropWhile_of_not {p : Char → Bool} {c : Char} (hp : p c = false)
    (l : List Char) (h : c ∈ l) : c ∈ l.rdropWhile p := by
  unfold List.rdropWhile
  exact List.mem_reverse.mpr (mem_dropWhile_of_not hp _ (List.mem_reverse.mpr h))

theorem mem_TrimSpace_of_not_space {c : Char} (hc : unicodeIsSpace c = false) (t : String)
    (h : c ∈ t.data) : c ∈ (TrimSpace t).data :=
  mem_rdropWhile_of_not hc _ (mem_dropWhile_of_not hc _ h)

theorem dropWhile_fixed_of_prefix {p : Char → Bool} :
    ∀ (m' m : List Char), m' <+: m → m.dropWhile p = m → m'.dropWhile p = m'
  | [], _, _, _ => rfl
  | x :: xs, m, hpre, hm => by
    obtain ⟨r, rfl⟩ := hpre
    have hx : ¬ p x = true := by
      have h := List.dropWhile_eq_self_iff.mp hm (by simp)
      simpa using h
    rw [List.dropWhile_cons_of_neg hx]

theorem TrimSpace_idempotent (t : String) : TrimSpace (TrimSpace t) = TrimSpace t := by
  have h1 : ((t.data.dropWhile unicodeIsSpace).rdropWhile unicodeIsSpace).dropWhile unicodeIsSpace
      = (t.data.dropWhile unicodeIsSpace).rdropWhile unicodeIsSpace :=
    dropWhile_fixed_of_prefix _ _ (List.rdropWhile_prefix _ _)
      (List.dropWhile_idempotent _ _)
  simp only [TrimSpace, h1, List.rdropWhile_idempotent]

theorem TrimSpace_eq_self (t : String) (hfirst : ∀ c, t.data.head? = some c → unicodeIsSpace c = false)
    (hlast : ∀ c, t.data.getLast? = some c → unicodeIsSpace c = false) : TrimSpace t = t := by
  have h1 : t.data.dropWhile unicodeIsSpace = t.data := by
    cases hd : t.data with
    | nil => rfl
    | cons x xs =>
      have hx := hfirst x (by rw [hd]; rfl)
      rw [List.dropWhile_cons_of_neg (by simp [hx])]
  have h2 : t.data.rdropWhile unicodeIsSpace = t.data := by
    rw [List.rdropWhile_eq_self_iff]
    intro hl
    have hx := hlast _ (List.getLast?_eq_getLast _ hl)
    simp [hx]
  show String.mk _ = t
  rw [h1, h2]

theorem sanitizeIdentifier_eq_ite (t : String) :
    sanitizeIdentifier t = if (TrimSpace t).data.all specAllowedChar then TrimSpace t else "" := by
  simp only [sanitizeIdentifier, sanitizeLoop_eq]

theorem sanitizeIdentifier_of_rejected (t : String) (c : Char) (hc : c ∈ (TrimSpace t).data)
    (hrej : specAllowedChar c = false) : sanitizeIdentifier t = "" := by
  rw [sanitizeIdentifier_eq_ite, if_neg]
  intro hall
  rw [List.all_eq_true] at hall
  rw [hall c hc] at hrej
  exact Bool.noConfusion hrej

/-- C1: `sanitizeIdentifier` is exactly the function of the specification:
with `u` the argument with surrounding whitespace trimmed, the result is `u`
if every character of `u` is an ASCII letter, an ASCII digit, underscore,
space or dot, and the empty string otherwise. -/
theorem sanitizeIdentifier_eq_sanitizeSpec (t : String) :
    sanitizeIdentifier t = sanitizeSpec t := by
  simp only [sanitizeSpec, sanitizeIdentifier_eq_ite]

/-- C2 (as stated, refuted): the identifier `"a\n"` contains the control
character LF, at its end, and yet `sanitizeIdentifier` returns `"a"`, not the
empty string: trailing whitespace is trimmed before the scan. -/
theorem sanitizeIdentifier_control_char_accepted :
    '\n' ∈ "a\n".data ∧ unicodeIsControl '\n' = true ∧
      sanitizeIdentifier "a\n" = "a" ∧ sanitizeIdentifier "a\n" ≠ "" := by
  decide

/-- C2 (amended): an identifier that contains one of the metacharacters
semicolon, apostrophe, double quote, backslash, backtick, hyphen, slash,
asterisk anywhere, or that still contains a control character once its
surrounding whitespace is trimmed, is rejected with the empty string. -/
theorem sanitizeIdentifier_rejects_meta_or_control (t : String) (c : Char)
    (hbad : (c ∈ t.data ∧ c ∈ sqlMetaChars) ∨
      (c ∈ (TrimSpace t).data ∧ unicodeIsControl c = true)) :
    sanitizeIdentifier t = "" := by
  rcases hbad with ⟨hmem, hmeta⟩ | ⟨hmem, hctl⟩
  · have hc : unicodeIsSpace c = false ∧ specAllowedChar c = false := by
      simp only [sqlMetaChars, List.mem_cons, List.mem_singleton, List.not_mem_nil, or_false]
        at hmeta
      rcases hmeta with h | h | h | h | h | h | h | h <;> subst h <;> decide
    exact sanitizeIdentifier_of_rejected t c (mem_TrimSpace_of_not_space hc.1 t hmem) hc.2
  · refine sanitizeIdentifier_of_rejected t c hmem ?_
    simp only [unicodeIsControl, Bool.or_eq_true, Bool.and_eq_true, decide_eq_true_eq] at hctl
    have e1 : 'a'.toNat = 97 := rfl
    have e2 : 'z'.toNat = 122 := rfl
    have e3 : 'A'.toNat = 65 := rfl
    have e4 : 'Z'.toNat = 90 := rfl
    have e5 : '0'.toNat = 48 := rfl
    have e6 : '9'.toNat = 57 := rfl
    have h1 : c ≠ '_' := by rintro rfl; revert hctl; decide
    have h2 : c ≠ ' ' := by rintro rfl; revert hctl; decide
    have h3 : c ≠ '.' := by rintro rfl; revert hctl; decide
    simp only [specAllowedChar, e1, e2, e3, e4, e5, e6, Bool.or_eq_false_iff,
      Bool.and_eq_false_imp, decide_eq_true_eq, decide_eq_false_iff_not, beq_eq_false_iff_ne]
    refine ⟨⟨⟨⟨⟨?_, ?_⟩, ?_⟩, h1⟩, h2⟩, h3⟩ <;> omega

/-- Witness for C2 (amended): `"x;y"` contains a semicolon and is rejected. -/
theorem sanitizeIdentifier_rejects_meta_or_control_witness :
    ((';' ∈ "x;y".data ∧ ';' ∈ sqlMetaChars) ∨
      (';' ∈ (TrimSpace "x;y").data ∧ unicodeIsControl ';' = true)) ∧
      sanitizeIdentifier "x;y" = "" :=
  ⟨Or.inl (by decide), sanitizeIdentifier_rejects_meta_or_control "x;y" ';' (Or.inl (by decide))⟩

/-- C3 (as stated, refuted): `" a"` is non-empty and made only of a space
and a letter, and `sanitizeIdentifier` does not return it unchanged: it returns
`"a"`. -/
theorem sanitizeIdentifier_leading_space_changed :
    " a" ≠ "" ∧ " a".data.all specAllowedChar = true ∧
      sanitizeIdentifier " a" = "a" ∧ sanitizeIdentifier " a" ≠ " a" := by
  decide

/-- C3 (amended): an identifier made only of ASCII letters, digits,
underscore, dot and space that neither begins nor ends with a space (every
non-empty one of this form in particular) is accepted and returned
unchanged. -/
theorem sanitizeIdentifier_accepts_unchanged (t : String)
    (hall : t.data.all specAllowedChar = true)
    (hfirst : t.data.head? ≠ some ' ') (hlast : t.data.getLast? ≠ some ' ') :
    sanitizeIdentifier t = t := by
  have hsp : ∀ c, c ∈ t.data → c ≠ ' ' → unicodeIsSpace c = false := by
    intro c hc hne'
    have hal := List.all_eq_true.mp hall c hc
    by_contra hs
    have hs' : unicodeIsSpace c = true := by simpa using hs
    have e1 : 'a'.toNat = 97 := rfl
    have e2 : 'z'.toNat = 122 := rfl
    have e3 : 'A'.toNat = 65 := rfl
    have e4 : 'Z'.toNat = 90 := rfl
    have e5 : '0'.toNat = 48 := rfl
    have e6 : '9'.toNat = 57 := rfl
    simp only [specAllowedChar, e1, e2, e3, e4, e5, e6, Bool.or_eq_true, Bool.and_eq_true,
      decide_eq_true_eq, beq_iff_eq] at hal
    have hlt : c.toNat ≤ 0xFF := by
      rcases hal with ((((h | h) | h) | h) | h) | h
      · omega
      · omega
      · omega
      · subst h; decide
      · subst h; decide
      · subst h; decide
    simp only [unicodeIsSpace, hlt, if_true, Bool.or_eq_true, beq_iff_eq] at hs'
    rcases hs' with ((((((h | h) | h) | h) | h) | h) | h) | h
    all_goals first
      | exact hne' h
      | (subst h; revert hal; decide)
  have htrim : TrimSpace t = t := by
    apply TrimSpace_eq_self
    · intro c hc
      exact hsp c (List.mem_of_mem_head? hc) (fun h => hfirst (h ▸ hc))
    · intro c hc
      exact hsp c (List.mem_of_mem_getLast? hc) (fun h => hlast (h ▸ hc))
  rw [sanitizeIdentifier_eq_ite, htrim, if_pos hall]

/-- Witness for C3 (amended): `"order_items.unit price2"`. -/
theorem sanitizeIdentifier_accepts_unchanged_witness :
    sanitizeIdentifier "order_items.unit price2" = "order_items.unit price2" :=
  sanitizeIdentifier_accepts_unchanged "order_items.unit price2" (by decide) (by decide)
    (by decide)

/-- C4: `sanitizeIdentifier` is idempotent. -/
theorem sanitizeIdentifier_idempotent (t : String) :
    sanitizeIdentifier (sanitizeIdentifier t) = sanitizeIdentifier t := by
  by_cases h : (TrimSpace t).data.all specAllowedChar = true
  · have h1 : sanitizeIdentifier t = TrimSpace t := by
      rw [sanitizeIdentifier_eq_ite, if_pos h]
    rw [h1, sanitizeIdentifier_eq_ite, TrimSpace_idempotent, if_pos h]
  · have h1 : sanitizeIdentifier t = "" := by
      rw [sanitizeIdentifier_eq_ite, if_neg h]
    rw [h1]
    decide

/-! ## Theorems: the predicate compiler -/

theorem applyWhereConditions_eq (upperTable : Char → Char) (clauses : List WhereClause) :
    ∀ query : SelectBuilder, applyWhereConditions upperTable query clauses =
      { query with
        WhereParts := query.WhereParts ++ compileNodes whereNodeSelect upperTable clauses } := by
  induction clauses with
  | nil => intro query; simp [applyWhereConditions, compileNodes]
  | cons clause clauses ih =>
    intro query
    by_cases h : sanitizeIdentifier clause.Column = ""
    · simp [applyWhereConditions, compileNodes, h, ih]
    · simp [applyWhereConditions, compileNodes, h, ih, SelectBuilder.Where]

theorem applyWhereConditionsUpdate_eq (upperTable : Char → Char) (clauses : List WhereClause) :
    ∀ query : UpdateBuilder, applyWhereConditionsUpdate upperTable query clauses =
      { query with
        WhereParts := query.WhereParts ++ compileNodes whereNodeMutate upperTable clauses } := by
  induction clauses with
  | nil => intro query; simp [applyWhereConditionsUpdate, compileNodes]
  | cons clause clauses ih =>
    intro query
    by_cases h : sanitizeIdentifier clause.Column = ""
    · simp [applyWhereConditionsUpdate, compileNodes, h, ih]
    · simp [applyWhereConditionsUpdate, compileNodes, h, ih, UpdateBuilder.Where]

theorem applyWhereConditionsDelete_eq (upperTable : Char → Char) (clauses : List WhereClause) :
    ∀ query : DeleteBuilder, applyWhereConditionsDelete upperTable query clauses =
      { query with
        WhereParts := query.WhereParts ++ compileNodes whereNodeMutate upperTable clauses } := by
  induction clauses with
  | nil => intro query; simp [applyWhereConditionsDelete, compileNodes]
  | cons clause clauses ih =>
    intro query
    by_cases h : sanitizeIdentifier clause.Column = ""
    · simp [applyWhereConditionsDelete, compileNodes, h, ih]
    · simp [applyWhereConditionsDelete, compileNodes, h, ih, DeleteBuilder.Where]

theorem whereNodeMutate_eq_select (col op : String) (value : Value) (h : op ≠ "BETWEEN") :
    whereNodeMutate col op value = whereNodeSelect col op value := by
  simp only [whereNodeMutate, whereNodeSelect, h, if_false]

/-- Off the `BETWEEN` operator the three loops compile the same nodes: if no
kept clause has the upper-cased operator `BETWEEN`, the node sequence of the
mutating builders is the node sequence of the select builder. -/
theorem compileNodes_mutate_eq_select (upperTable : Char → Char) (clauses : List WhereClause)
    (h : ∀ clause ∈ clauses, ToUpper upperTable clause.Op ≠ "BETWEEN") :
    compileNodes whereNodeMutate upperTable clauses
      = compileNodes whereNodeSelect upperTable clauses := by
  induction clauses with
  | nil => rfl
  | cons clause clauses ih =>
    have ih' := ih (fun c hc => h c (List.mem_cons_of_mem _ hc))
    have hc := h clause (List.mem_cons_self _ _)
    simp only [compileNodes, ih', whereNodeMutate_eq_select _ _ _ hc]

/-- C5 (the code at the failing input): for the one-clause filter
`age BETWEEN [18, 65]` the SELECT that `applyWhereConditions` builds renders,
under MySQL and under Postgres, with two placeholders in its WHERE text and a
single bound parameter, the whole two-element list. -/
theorem applyWhereConditions_between_two_placeholders_one_parameter :
    (applyWhereConditions (fun c => c) (selectFrom (exampleConfig .mysql) ["*"] "users")
        [betweenClause]).ToSql
      = .ok ⟨"SELECT * FROM users WHERE age BETWEEN ? AND ?",
          [.array [.number 18, .number 65]]⟩ ∧
    (applyWhereConditions (fun c => c) (selectFrom (exampleConfig .postgres) ["*"] "users")
        [betweenClause]).ToSql
      = .ok ⟨"SELECT * FROM users WHERE age BETWEEN $1 AND $2",
          [.array [.number 18, .number 65]]⟩ :=
  ⟨rfl, rfl⟩

/-- C6 (the code at the failing input): for the one-clause filter
`age BETWEEN [18, 65]` the preflight builder gets the node
`age BETWEEN ? AND ?` while the UPDATE and the DELETE builder get the node
`age BETWEEN ?`; the node sequences differ. -/
theorem preflight_predicate_differs_on_between :
    (applyWhereConditions (fun c => c) (selectFrom (exampleConfig .postgres) ["COUNT(*)"] "users")
        [betweenClause]).WhereParts
      = [.Expr "age BETWEEN ? AND ?" [.array [.number 18, .number 65]]] ∧
    (applyWhereConditionsUpdate (fun c => c) ⟨.Dollar, "users", [("name", .string "x")], []⟩
        [betweenClause]).WhereParts
      = [.Expr "age BETWEEN ?" [.array [.number 18, .number 65]]] ∧
    (applyWhereConditionsDelete (fun c => c) ⟨.Dollar, "users", []⟩ [betweenClause]).WhereParts
      = [.Expr "age BETWEEN ?" [.array [.number 18, .number 65]]] ∧
    (applyWhereConditions (fun c => c) (selectFrom (exampleConfig .postgres) ["COUNT(*)"] "users")
        [betweenClause]).WhereParts ≠
      (applyWhereConditionsUpdate (fun c => c) ⟨.Dollar, "users", [("name", .string "x")], []⟩
        [betweenClause]).WhereParts := by
  refine ⟨rfl, rfl, rfl, ?_⟩
  intro h
  have h' : ([.Expr "age BETWEEN ? AND ?" [.array [.number 18, .number 65]]] : List Sqlizer)
      = [.Expr "age BETWEEN ?" [.array [.number 18, .number 65]]] := h
  simp only [List.cons.injEq, Sqlizer.Expr.injEq, and_true] at h'
  revert h'
  decide

/-! ## Theorems: the handlers -/

/-- C7 (as stated, refuted): an UPDATE request with an empty column-value map
reaches the preflight, the count `1` does not exceed the cap `1`, and the
handler still issues no mutating statement: the only statement issued is the
count query, and the result is the build error of the UPDATE builder. -/
theorem QueryUpdate_within_cap_not_issued :
    (countQuery (exampleConfig .postgres) "users" [⟨"id", "=", .number 7⟩]).ToSql
      = .ok ⟨"SELECT COUNT(*) FROM users WHERE id = $1", [.number 7]⟩ ∧
    (constantDatabase 1 1).queryRowInt ⟨"SELECT COUNT(*) FROM users WHERE id = $1", [.number 7]⟩
      = .ok 1 ∧
    (1 : Int) ≤ (exampleConfig .postgres).maxUpdateLimit ∧
    QueryUpdate (exampleConfig .postgres) (constantDatabase 1 1)
        ⟨"shop", "users", "", [], [⟨"id", "=", .number 7⟩]⟩
      = ⟨[⟨"SELECT COUNT(*) FROM users WHERE id = $1", [.number 7]⟩],
          .error (.buildFailed "update statements must have at least one Set clause")⟩ :=
  ⟨rfl, rfl, by decide, rfl⟩

/-- C7 (amended): for an UPDATE (resp. DELETE) request that reaches the
preflight (writes allowed, database allowed, filter list non-empty, count
query built and answered with `rowCount`): if `rowCount` exceeds
`maxUpdateLimit` (resp. `maxDeleteLimit`) the handler returns the row-limit
error having issued the count query only; otherwise it goes on to build the
mutating statement, returns the build error without issuing anything more if
the build fails, and issues the built statement right after the count query
if the build succeeds. -/
theorem preflight_row_cap (cfg : Config) (db : Database) :
    (∀ (input : QueryUpdateInput) (countStmt : Statement) (rowCount : Int),
      cfg.readOnly = false → validateDatabase cfg input.Database = .ok () → input.Where ≠ [] →
      (countQuery cfg (qualifiedTableName cfg input.Database input.Table) input.Where).ToSql
        = .ok countStmt →
      db.queryRowInt countStmt = .ok rowCount →
      (rowCount > cfg.maxUpdateLimit →
        QueryUpdate cfg db input
          = ⟨[countStmt], .error (.rowLimitExceeded rowCount cfg.maxUpdateLimit)⟩) ∧
      (rowCount ≤ cfg.maxUpdateLimit →
        (∀ err, (updateQuery cfg input).ToSql = .error err →
          QueryUpdate cfg db input = ⟨[countStmt], .error (.buildFailed err)⟩) ∧
        (∀ stmt, (updateQuery cfg input).ToSql = .ok stmt →
          (QueryUpdate cfg db input).issued = [countStmt, stmt] ∧
          (∀ affected, db.exec stmt = .ok affected →
            (QueryUpdate cfg db input).result = .ok affected) ∧
          (∀ err, db.exec stmt = .error err →
            (QueryUpdate cfg db input).result = .error (.execFailed err))))) ∧
    (∀ (input : QueryDeleteInput) (countStmt : Statement) (rowCount : Int),
      cfg.readOnly = false → validateDatabase cfg input.Database = .ok () → input.Where ≠ [] →
      (countQuery cfg (qualifiedTableName cfg input.Database input.Table) input.Where).ToSql
        = .ok countStmt →
      db.queryRowInt countStmt = .ok rowCount →
      (rowCount > cfg.maxDeleteLimit →
        QueryDelete cfg db input
          = ⟨[countStmt], .error (.rowLimitExceeded rowCount cfg.maxDeleteLimit)⟩) ∧
      (rowCount ≤ cfg.maxDeleteLimit →
        (∀ err, (deleteQuery cfg input).ToSql = .error err →
          QueryDelete cfg db input = ⟨[countStmt], .error (.buildFailed err)⟩) ∧
        (∀ stmt, (deleteQuery cfg input).ToSql = .ok stmt →
          (QueryDelete cfg db input).issued = [countStmt, stmt] ∧
          (∀ affected, db.exec stmt = .ok affected →
            (QueryDelete cfg db input).result = .ok affected) ∧
          (∀ err, db.exec stmt = .error err →
            (QueryDelete cfg db input).result = .error (.execFailed err))))) := by
  constructor
  · intro input countStmt rowCount hro hdb hne hcount hrow
    have hlen : ¬ input.Where.length = 0 := fun h => hne (List.length_eq_zero.mp h)
    constructor
    · intro hgt
      simp only [QueryUpdate, hro, hdb, hlen, hcount, hrow, hgt, if_true, if_false,
        Bool.false_eq_true]
    · intro hle
      have hgt : ¬ rowCount > cfg.maxUpdateLimit := not_lt.mpr hle
      have hrun : QueryUpdate cfg db input
          = buildAndExec db countStmt (updateQuery cfg input).ToSql := by
        simp only [QueryUpdate, hro, hdb, hlen, hcount, hrow, hgt, if_false,
          Bool.false_eq_true]
      refine ⟨fun err herr => ?_, fun stmt hstmt => ⟨?_, fun affected hex => ?_, fun err hex => ?_⟩⟩
      · rw [hrun, herr]; rfl
      · rw [hrun, hstmt]
        simp only [buildAndExec]
        cases db.exec stmt <;> rfl
      · rw [hrun, hstmt]
        simp only [buildAndExec, hex]
      · rw [hrun, hstmt]
        simp only [buildAndExec, hex]
  · intro input countStmt rowCount hro hdb hne hcount hrow
    have hlen : ¬ input.Where.length = 0 := fun h => hne (List.length_eq_zero.mp h)
    constructor
    · intro hgt
      simp only [QueryDelete, hro, hdb, hlen, hcount, hrow, hgt, if_true, if_false,
        Bool.false_eq_true]
    · intro hle
      have hgt : ¬ rowCount > cfg.maxDeleteLimit := not_lt.mpr hle
      have hrun : QueryDelete cfg db input
          = buildAndExec db countStmt (deleteQuery cfg input).ToSql := by
        simp only [QueryDelete, hro, hdb, hlen, hcount, hrow, hgt, if_false,
          Bool.false_eq_true]
      refine ⟨fun err herr => ?_, fun stmt hstmt => ⟨?_, fun affected hex => ?_, fun err hex => ?_⟩⟩
      · rw [hrun, herr]; rfl
      · rw [hrun, hstmt]
        simp only [buildAndExec]
        cases db.exec stmt <;> rfl
      · rw [hrun, hstmt]
        simp only [buildAndExec, hex]
      · rw [hrun, hstmt]
        simp only [buildAndExec, hex]

/-- Witness for C7 (amended): with cap `1`, an UPDATE whose filter matches
three rows is refused with the row-limit error after the count query alone. -/
theorem preflight_row_cap_witness :
    QueryUpdate (exampleConfig .postgres) (constantDatabase 3 3)
        ⟨"shop", "users", "", [("name", .string "x")], [⟨"id", ">", .number 7⟩]⟩
      = ⟨[⟨"SELECT COUNT(*) FROM users WHERE id > $1", [.number 7]⟩],
          .error (.rowLimitExceeded 3 1)⟩ :=
  ((preflight_row_cap (exampleConfig .postgres) (constantDatabase 3 3)).1
    ⟨"shop", "users", "", [("name", .string "x")], [⟨"id", ">", .number 7⟩]⟩
    ⟨"SELECT COUNT(*) FROM users WHERE id > $1", [.number 7]⟩ 3
    rfl rfl (by simp) rfl rfl).1 (by decide)

/-- C8 (the code at the failing input): the filter list of the request is
non-empty, its only clause has a column the sanitizer rejects, the table holds
no more rows than the cap; `QueryUpdate` and `QueryDelete` pass every check and
issue an UPDATE resp. a DELETE without any WHERE clause. -/
theorem mutation_issued_without_where :
    (updateQuery (exampleConfig .postgres)
        ⟨"shop", "users", "", [("status", .string "x")], [droppedClause]⟩).WhereParts = [] ∧
    QueryUpdate (exampleConfig .postgres) (constantDatabase 1 1)
        ⟨"shop", "users", "", [("status", .string "x")], [droppedClause]⟩
      = ⟨[⟨"SELECT COUNT(*) FROM users", []⟩,
          ⟨"UPDATE users SET status = $1", [.string "x"]⟩], .ok 1⟩ ∧
    (deleteQuery (exampleConfig .mysql) ⟨"shop", "users", "", [droppedClause]⟩).WhereParts = [] ∧
    QueryDelete (exampleConfig .mysql) (constantDatabase 1 1)
        ⟨"shop", "users", "", [droppedClause]⟩
      = ⟨[⟨"SELECT COUNT(*) FROM `shop`.`users`", []⟩,
          ⟨"DELETE FROM `shop`.`users`", []⟩], .ok 1⟩ :=
  ⟨rfl, rfl, rfl, rfl⟩

/-- C9: an UPDATE or DELETE request whose filter list is empty is answered with
an error and no statement is issued, whatever the configuration, the database
and the other fields of the request are; the error is the read-only error, the
access-denied error or the missing-WHERE error. -/
theorem empty_filter_no_statement (cfg : Config) (db : Database) :
    (∀ input : QueryUpdateInput, input.Where = [] →
      (QueryUpdate cfg db input).issued = [] ∧
      ((QueryUpdate cfg db input).result = .error .readOnly ∨
        (QueryUpdate cfg db input).result = .error (.accessDenied input.Database cfg.dbNames) ∨
        (QueryUpdate cfg db input).result = .error .whereRequired)) ∧
    (∀ input : QueryDeleteInput, input.Where = [] →
      (QueryDelete cfg db input).issued = [] ∧
      ((QueryDelete cfg db input).result = .error .readOnly ∨
        (QueryDelete cfg db input).result = .error (.accessDenied input.Database cfg.dbNames) ∨
        (QueryDelete cfg db input).result = .error .whereRequired)) := by
  constructor
  · intro input hw
    unfold QueryUpdate validateDatabase
    cases cfg.readOnly
    · cases validateDatabaseLoop input.Database cfg.dbNames <;> simp [hw]
    · simp
  · intro input hw
    unfold QueryDelete validateDatabase
    cases cfg.readOnly
    · cases validateDatabaseLoop input.Database cfg.dbNames <;> simp [hw]
    · simp

/-- Witness for C9: an UPDATE with an empty filter list on an allowed database,
writes allowed. -/
theorem empty_filter_no_statement_witness :
    (QueryUpdate (exampleConfig .mysql) (constantDatabase 0 0)
        ⟨"shop", "users", "", [("name", .string "x")], []⟩).issued = [] :=
  ((empty_filter_no_statement (exampleConfig .mysql) (constantDatabase 0 0)).1
    ⟨"shop", "users", "", [("name", .string "x")], []⟩ rfl).1

/-- The clamped limit in the rendered statement: a SELECT that asks for a
million rows under the default cap, and one that names no limit, both render
with `LIMIT 1000`. -/
theorem selectQuery_renders_clamped_limit :
    (selectQuery (exampleConfig .postgres)
        ⟨"shop", "users", "", [], [⟨"id", ">", .number 7⟩], [], 1000000, 0⟩).ToSql
      = .ok ⟨"SELECT * FROM users WHERE id > $1 LIMIT 1000", [.number 7]⟩ ∧
    (selectQuery (exampleConfig .mysql) ⟨"shop", "users", "", [], [], [], 0, 0⟩).ToSql
      = .ok ⟨"SELECT * FROM `shop`.`users` LIMIT 1000", []⟩ :=
  ⟨rfl, rfl⟩

/-! ## Theorems: the allowlist -/

theorem validateDatabaseLoop_eq_true_iff (database : String) (names : List String) :
    validateDatabaseLoop database names = true ↔ database ∈ names := by
  induction names with
  | nil => simp [validateDatabaseLoop]
  | cons allowedDB rest ih =>
    by_cases h : database = allowedDB
    · simp [validateDatabaseLoop, h]
    · simp [validateDatabaseLoop, h, ih]

theorem validateDatabase_of_mem (cfg : Config) (database : String)
    (h : database ∈ cfg.dbNames) : validateDatabase cfg database = .ok () := by
  simp [validateDatabase, (validateDatabaseLoop_eq_true_iff database cfg.dbNames).mpr h]

theorem validateDatabase_of_not_mem (cfg : Config) (database : String)
    (h : database ∉ cfg.dbNames) :
    validateDatabase cfg database = .error (.accessDenied database cfg.dbNames) := by
  have hloop : validateDatabaseLoop database cfg.dbNames = false := by
    cases hl : validateDatabaseLoop database cfg.dbNames with
    | false => rfl
    | true => exact absurd ((validateDatabaseLoop_eq_true_iff _ _).mp hl) h
  simp [validateDatabase, hloop]

/-- C11: `validateDatabase` succeeds if and only if the database name is a
member of the configured allowlist (equality of strings, so exact and
case-sensitive); for every name that is not a member it returns the
access-denied error. -/
theorem validateDatabase_ok_iff_mem (cfg : Config) (database : String) :
    (validateDatabase cfg database = .ok () ↔ database ∈ cfg.dbNames) ∧
    (database ∉ cfg.dbNames →
      validateDatabase cfg database = .error (.accessDenied database cfg.dbNames)) := by
  refine ⟨⟨fun hok => ?_, validateDatabase_of_mem cfg database⟩,
    validateDatabase_of_not_mem cfg database⟩
  by_contra hmem
  rw [validateDatabase_of_not_mem cfg database hmem] at hok
  exact Except.noConfusion hok

/-- Witness for C11: with the allowlist `["shop"]` the name `"Shop"`, which
differs from the member in letter case only, is denied. -/
theorem validateDatabase_ok_iff_mem_witness :
    validateDatabase (exampleConfig .postgres) "Shop"
      = .error (.accessDenied "Shop" ["shop"]) :=
  (validateDatabase_ok_iff_mem (exampleConfig .postgres) "Shop").2 (by decide)

/-! ## Theorems: dropped and kept clauses -/

theorem compileNodes_eq_filter_map (node : String → String → Value → Sqlizer)
    (upperTable : Char → Char) (clauses : List WhereClause) :
    compileNodes node upperTable clauses
      = (clauses.filter (fun clause => decide (sanitizeIdentifier clause.Column ≠ ""))).map
          (fun clause =>
            node (sanitizeIdentifier clause.Column) (ToUpper upperTable clause.Op)
              clause.Value) := by
  induction clauses with
  | nil => rfl
  | cons clause clauses ih =>
    by_cases h : sanitizeIdentifier clause.Column = ""
    · simp [compileNodes, h, ih]
    · simp [compileNodes, h, ih]

/-- C20: the predicate compiler drops exactly the clauses whose column fails
sanitization and keeps the rest in order. The where parts `applyWhereConditions`
adds to a builder are, in clause order, one node for every clause whose
sanitized column is non-empty, built from the sanitized column, the upper-cased
operator and the value; every other field of the builder is left as it was; and
the result is the builder (never an error) that the list without the dropped
clauses gives. The UPDATE and DELETE variants add nodes for the same clauses. -/
theorem applyWhereConditions_keeps_sanitized_in_order (upperTable : Char → Char)
    (clauses : List WhereClause) :
    (∀ query : SelectBuilder,
      applyWhereConditions upperTable query clauses
        = { query with
            WhereParts := query.WhereParts ++
              (clauses.filter (fun clause => decide (sanitizeIdentifier clause.Column ≠ ""))).map
                (fun clause =>
                  whereNodeSelect (sanitizeIdentifier clause.Column)
                    (ToUpper upperTable clause.Op) clause.Value) } ∧
      applyWhereConditions upperTable query clauses
        = applyWhereConditions upperTable query
            (clauses.filter (fun clause => decide (sanitizeIdentifier clause.Column ≠ "")))) ∧
    (∀ query : UpdateBuilder,
      (applyWhereConditionsUpdate upperTable query clauses).WhereParts
        = query.WhereParts ++
            (clauses.filter (fun clause => decide (sanitizeIdentifier clause.Column ≠ ""))).map
              (fun clause =>
                whereNodeMutate (sanitizeIdentifier clause.Column)
                  (ToUpper upperTable clause.Op) clause.Value)) ∧
    (∀ query : DeleteBuilder,
      (applyWhereConditionsDelete upperTable query clauses).WhereParts
        = query.WhereParts ++
            (clauses.filter (fun clause => decide (sanitizeIdentifier clause.Column ≠ ""))).map
              (fun clause =>
                whereNodeMutate (sanitizeIdentifier clause.Column)
                  (ToUpper upperTable clause.Op) clause.Value)) := by
  refine ⟨fun query => ⟨?_, ?_⟩, fun query => ?_, fun query => ?_⟩
  · rw [applyWhereConditions_eq, compileNodes_eq_filter_map]
  · rw [applyWhereConditions_eq, applyWhereConditions_eq, compileNodes_eq_filter_map,
      compileNodes_eq_filter_map, List.filter_filter]
    simp
  · rw [applyWhereConditionsUpdate_eq, compileNodes_eq_filter_map]
  · rw [applyWhereConditionsDelete_eq, compileNodes_eq_filter_map]

/-! ## Theorems: the read-only gate of the structured mutations -/

/-- C13: when `readOnly` is true, every insert, update and delete request,
whatever its database, table, data and filters are, fails with the read-only
error and no SQL statement is issued. -/
theorem readOnly_blocks_mutations (cfg : Config) (db : Database) (hro : cfg.readOnly = true)
    (ins : QueryInsertInput) (upd : QueryUpdateInput) (del : QueryDeleteInput) :
    QueryInsert cfg db ins = ⟨[], .error .readOnly⟩ ∧
    QueryUpdate cfg db upd = ⟨[], .error .readOnly⟩ ∧
    QueryDelete cfg db del = ⟨[], .error .readOnly⟩ := by
  refine ⟨?_, ?_, ?_⟩
  · simp only [QueryInsert, hro, if_true]
  · simp only [QueryUpdate, hro, if_true]
  · simp only [QueryDelete, hro, if_true]

/-- Witness for C13: a read-only MySQL configuration, requests on the allowed
database. -/
theorem readOnly_blocks_mutations_witness :
    QueryInsert (readOnlyConfig .mysql true) (constantDatabase 0 1)
        ⟨"shop", "users", "", [("name", .string "x")]⟩ = ⟨[], .error .readOnly⟩ ∧
    QueryUpdate (readOnlyConfig .mysql true) (constantDatabase 0 1)
        ⟨"shop", "users", "", [("name", .string "x")], [⟨"id", "=", .number 7⟩]⟩
      = ⟨[], .error .readOnly⟩ ∧
    QueryDelete (readOnlyConfig .mysql true) (constantDatabase 0 1)
        ⟨"shop", "users", "", [⟨"id", "=", .number 7⟩]⟩ = ⟨[], .error .readOnly⟩ :=
  readOnly_blocks_mutations (readOnlyConfig .mysql true) (constantDatabase 0 1) rfl _ _ _

/-! ## Theorems: the table token -/

theorem applyWhereConditions_From (upperTable : Char → Char) (query : SelectBuilder)
    (clauses : List WhereClause) :
    (applyWhereConditions upperTable query clauses).From = query.From := by
  rw [applyWhereConditions_eq]

theorem foldl_Set_Table (data : List (String × Value)) :
    ∀ query : UpdateBuilder,
      (data.foldl (fun q kv => q.Set (sanitizeIdentifier kv.1) kv.2) query).Table
        = query.Table := by
  induction data with
  | nil => intro query; rfl
  | cons kv rest ih => intro query; rw [List.foldl_cons, ih]; rfl

/-- C17: the table token is placed in the SQL text without passing the
identifier sanitizer. The table name `users; DROP TABLE users`, which the
sanitizer rejects, stands as given in the statement `QuerySelect`,
`QueryInsert`, `QueryUpdate` (count query and mutation) and `QueryDelete` (the
same) issue, while a column of the same kind in the same SELECT is sanitized
and never reaches the text; under MySQL a backtick in the table name closes
the quoting; and a table name that carries its own `LIMIT` and a comment marker
leaves the clamped `LIMIT` clause behind the marker. -/
theorem table_token_not_sanitized :
    sanitizeIdentifier "users; DROP TABLE users" = "" ∧
    (QuerySelect (exampleConfig .postgres) (constantDatabase 0 0)
        ⟨"shop", "users; DROP TABLE users", "", [], [], [], 0, 0⟩).issued
      = [⟨"SELECT * FROM users; DROP TABLE users LIMIT 1000", []⟩] ∧
    (QuerySelect (exampleConfig .postgres) (constantDatabase 0 0)
        ⟨"shop", "users", "", ["name", "users; DROP TABLE users"], [], [], 0, 0⟩).issued
      = [⟨"SELECT name FROM users LIMIT 1000", []⟩] ∧
    (QueryInsert (exampleConfig .postgres) (constantDatabase 0 1)
        ⟨"shop", "users; DROP TABLE users", "", [("name", .string "x")]⟩).issued
      = [⟨"INSERT INTO users; DROP TABLE users (name) VALUES ($1)", [.string "x"]⟩] ∧
    (QueryUpdate (exampleConfig .postgres) (constantDatabase 0 1)
        ⟨"shop", "users; DROP TABLE users", "", [("name", .string "x")],
          [⟨"id", "=", .number 7⟩]⟩).issued
      = [⟨"SELECT COUNT(*) FROM users; DROP TABLE users WHERE id = $1", [.number 7]⟩,
          ⟨"UPDATE users; DROP TABLE users SET name = $1 WHERE id = $2",
            [.string "x", .number 7]⟩] ∧
    (QueryDelete (exampleConfig .postgres) (constantDatabase 0 1)
        ⟨"shop", "users; DROP TABLE users", "", [⟨"id", "=", .number 7⟩]⟩).issued
      = [⟨"SELECT COUNT(*) FROM users; DROP TABLE users WHERE id = $1", [.number 7]⟩,
          ⟨"DELETE FROM users; DROP TABLE users WHERE id = $1", [.number 7]⟩] ∧
    (QuerySelect (exampleConfig .mysql) (constantDatabase 0 0)
        ⟨"shop", "users`; DROP TABLE `users", "", [], [], [], 0, 0⟩).issued
      = [⟨"SELECT * FROM `shop`.`users`; DROP TABLE `users` LIMIT 1000", []⟩] ∧
    (QuerySelect (exampleConfig .postgres) (constantDatabase 0 0)
        ⟨"shop", "users LIMIT 999999 --", "", [], [], [], 5, 0⟩).issued
      = [⟨"SELECT * FROM users LIMIT 999999 -- LIMIT 5", []⟩] := by
  refine ⟨by decide, rfl, rfl, rfl, rfl, rfl, rfl, rfl⟩

/-- The table token of the four builders, for every request: the request's
table name as given under Postgres, and the pair of database and table name,
each as given between backticks, under MySQL. -/
theorem table_token_as_given (cfg : Config) (sel : QuerySelectInput) (ins : QueryInsertInput)
    (upd : QueryUpdateInput) (del : QueryDeleteInput) :
    (selectQuery cfg sel).From = some (qualifiedTableName cfg sel.Database sel.Table) ∧
    (insertQuery cfg ins).Into = qualifiedTableName cfg ins.Database ins.Table ∧
    (updateQuery cfg upd).Table = qualifiedTableName cfg upd.Database upd.Table ∧
    (deleteQuery cfg del).From = qualifiedTableName cfg del.Database del.Table ∧
    (∀ database table : String,
      qualifiedTableName cfg database table
        = match cfg.dbType with
          | .postgres => table
          | .mysql => "`" ++ database ++ "`.`" ++ table ++ "`") := by
  refine ⟨?_, ?_, ?_, ?_, ?_⟩
  · unfold selectQuery
    by_cases ho : sel.Offset > 0 <;> by_cases hc : sel.Columns.length > 0 <;>
      by_cases hw : sel.Where.length > 0 <;>
      simp [ho, hc, hw, applyWhereConditions_From, selectFrom]
  · simp only [insertQuery, InsertBuilder.addColumns, InsertBuilder.addValues]
  · unfold updateQuery
    simp only [applyWhereConditionsUpdate_eq, foldl_Set_Table]
  · unfold deleteQuery
    simp only [applyWhereConditionsDelete_eq]
  · intro database table
    unfold qualifiedTableName
    cases cfg.dbType <;> simp

/-! ## Theorems: the INSERT column and parameter lists -/

theorem insertColumnsValues_eq (data : List (String × Value)) :
    ∀ (columns : List String) (values : List Value),
      insertColumnsValues data columns values
        = (columns ++ data.map (fun kv => sanitizeIdentifier kv.1),
            values ++ data.map (fun kv => kv.2)) := by
  induction data with
  | nil => intro columns values; simp [insertColumnsValues]
  | cons kv rest ih =>
    intro columns values
    obtain ⟨col, val⟩ := kv
    simp [insertColumnsValues, ih]

theorem String_length_ne_zero {s : String} (h : s ≠ "") : ¬ s.length = 0 := by
  intro hlen
  apply h
  cases s with
  | mk data =>
    have : data = [] := List.length_eq_zero.mp hlen
    subst this
    rfl

/-- The builder lists of `QueryInsert`, for every data map (its entries in
iteration order) and a non-empty table token: the INSERT renders; its column
list is the list of sanitized keys, an empty string standing for a rejected
key, and its bound parameters are the list of values, both in iteration order
and both as long as the map has entries. -/
theorem QueryInsert_columns_values_aligned (cfg : Config) (input : QueryInsertInput)
    (htable : qualifiedTableName cfg input.Database input.Table ≠ "") :
    (insertQuery cfg input).Columns = input.Data.map (fun kv => sanitizeIdentifier kv.1) ∧
    (insertQuery cfg input).ToSql
      = .ok ⟨cfg.qb.ReplacePlaceholders
          ("INSERT " ++ "INTO " ++ qualifiedTableName cfg input.Database input.Table ++ " " ++
            (if input.Data.length > 0 then
              "(" ++ stringsJoin "," (input.Data.map (fun kv => sanitizeIdentifier kv.1)) ++ ") "
              else "") ++
            "VALUES " ++ ("(" ++ stringsJoin "," (input.Data.map (fun _ => "?")) ++ ")")),
          input.Data.map (fun kv => kv.2)⟩ ∧
    (input.Data.map (fun kv => sanitizeIdentifier kv.1)).length = input.Data.length ∧
    (input.Data.map (fun kv => kv.2)).length = input.Data.length ∧
    (∀ n : Nat,
      (input.Data.map (fun kv => sanitizeIdentifier kv.1))[n]?
          = (input.Data[n]?).map (fun kv => sanitizeIdentifier kv.1) ∧
      (input.Data.map (fun kv => kv.2))[n]? = (input.Data[n]?).map (fun kv => kv.2)) := by
  have hcols : (insertQuery cfg input).Columns
      = input.Data.map (fun kv => sanitizeIdentifier kv.1) := by
    simp [insertQuery, insertColumnsValues_eq, InsertBuilder.addColumns,
      InsertBuilder.addValues]
  have hvals : (insertQuery cfg input).Values = [input.Data.map (fun kv => kv.2)] := by
    simp [insertQuery, insertColumnsValues_eq, InsertBuilder.addColumns,
      InsertBuilder.addValues]
  have hinto : (insertQuery cfg input).Into
      = qualifiedTableName cfg input.Database input.Table := by
    simp [insertQuery, InsertBuilder.addColumns, InsertBuilder.addValues]
  have hfmt : (insertQuery cfg input).PlaceholderFormat = cfg.qb := by
    simp [insertQuery, InsertBuilder.addColumns, InsertBuilder.addValues]
  refine ⟨hcols, ?_, by simp, by simp, fun n => ⟨by simp, by simp⟩⟩
  have hlen := String_length_ne_zero htable
  unfold InsertBuilder.ToSql
  rw [hcols, hvals, hinto, hfmt]
  have hq : List.map ((fun _ : Value => "?") ∘ fun kv : String × Value => kv.2) input.Data
      = List.replicate input.Data.length "?" := by
    simp [Function.comp_def]
  by_cases hd : input.Data.length > 0
  · simp [hlen, hd, appendValuesToSQL, stringsJoin, String.append_assoc, hq]
    rw [show (" (" : String) = " " ++ "(" from rfl, String.append_assoc]
  · simp [hlen, hd, appendValuesToSQL, stringsJoin, String.append_assoc, hq]

/-- Two entries with accepted keys under MySQL. -/
theorem QueryInsert_columns_values_aligned_witness :
    (insertQuery (exampleConfig .mysql)
        ⟨"shop", "users", "", [("name", .string "John"), ("email", .string "john@x.com")]⟩).ToSql
      = .ok ⟨"INSERT INTO `shop`.`users` (name,email) VALUES (?,?)",
          [.string "John", .string "john@x.com"]⟩ :=
  (QueryInsert_columns_values_aligned (exampleConfig .mysql)
    ⟨"shop", "users", "", [("name", .string "John"), ("email", .string "john@x.com")]⟩
    (by decide)).2.1

/-- C18: a key the sanitizer rejects is not skipped by the loop of
`QueryInsert`: its empty sanitized form is appended to the column list and its
value to the parameter list. For the single entry `a;` the statement issued
names no column and binds one value; for an accepted and a rejected key it
names one column and binds two values. The loops of the predicate compiler
test the sanitized column and skip the clause, value included. -/
theorem QueryInsert_rejected_key_empty_column :
    sanitizeIdentifier "a;" = "" ∧
    (QueryInsert (exampleConfig .postgres) (constantDatabase 0 1)
        ⟨"shop", "users", "", [("a;", .number 1)]⟩).issued
      = [⟨"INSERT INTO users () VALUES ($1)", [.number 1]⟩] ∧
    (QueryInsert (exampleConfig .mysql) (constantDatabase 0 1)
        ⟨"shop", "users", "",
          [("name", .string "John"), ("e-mail", .string "john@x.com")]⟩).issued
      = [⟨"INSERT INTO `shop`.`users` (name,) VALUES (?,?)",
          [.string "John", .string "john@x.com"]⟩] ∧
    (applyWhereConditions (fun c => c) (selectFrom (exampleConfig .postgres) ["*"] "users")
        [⟨"a;", "=", .number 1⟩, ⟨"b", "=", .number 2⟩]).ToSql
      = .ok ⟨"SELECT * FROM users WHERE b = $1", [.number 2]⟩ := by
  refine ⟨by decide, rfl, rfl, rfl⟩

/-! ## Theorems: raw queries -/

/-- C14: when `allowRawQuery` is false, every raw-query request fails with the
raw-query-disabled error, whatever the statement text, the parameters, the
database name, the dialect and the read-only flag are, and no SQL statement is
issued. -/
theorem rawQuery_blocked (cfg : Config) (db : Database) (input : QueryRawInput)
    (hraw : cfg.allowRawQuery = false) :
    QueryRaw cfg db input = ⟨[], .error .rawQueryBlocked⟩ := by
  simp only [QueryRaw, hraw, Bool.not_false, if_true]

/-- Witness for C14: a SELECT on the allowed database with raw queries off. -/
theorem rawQuery_blocked_witness :
    QueryRaw (readOnlyConfig .postgres false) (routineDatabase "")
        ⟨"shop", "SELECT 1", [.number 1]⟩ = ⟨[], .error .rawQueryBlocked⟩ :=
  rawQuery_blocked (readOnlyConfig .postgres false) (routineDatabase "")
    ⟨"shop", "SELECT 1", [.number 1]⟩ rfl

theorem QueryRawDispatch_readOnly (cfg : Config) (db : Database) (input : QueryRawInput)
    (issued : List Statement) (hro : cfg.readOnly = true) :
    ((QueryRawDispatch cfg db input issued).result = .error .readOnly ↔
      HasPrefix (ToUpper cfg.upperTable (TrimSpace input.Query)) "SELECT" = false) ∧
    (HasPrefix (ToUpper cfg.upperTable (TrimSpace input.Query)) "SELECT" = false →
      QueryRawDispatch cfg db input issued = ⟨issued, .error .readOnly⟩) ∧
    (HasPrefix (ToUpper cfg.upperTable (TrimSpace input.Query)) "SELECT" = true →
      (QueryRawDispatch cfg db input issued).issued
        = issued ++ [⟨input.Query, input.Params⟩]) := by
  cases hsel : HasPrefix (ToUpper cfg.upperTable (TrimSpace input.Query)) "SELECT" with
  | false =>
    simp [QueryRawDispatch, hsel, hro]
  | true =>
    refine ⟨?_, by simp, fun _ => ?_⟩
    · simp only [QueryRawDispatch, hsel, if_true]
      cases db.query ⟨input.Query, input.Params⟩ <;> simp
    · simp only [QueryRawDispatch, hsel, if_true]
      cases db.query ⟨input.Query, input.Params⟩ <;> rfl

/-- C15 (as stated, refuted): read-only mode, raw queries enabled, allowed
database, MySQL, and a server on which the `USE` statement fails: the
non-SELECT text `DELETE FROM users` is not answered with the read-only error
but with the switch error, and the SELECT text `SELECT 1` is not passed to the
database. -/
theorem QueryRaw_switch_failure_precedes_gate :
    (readOnlyConfig .mysql true).readOnly = true ∧
    (readOnlyConfig .mysql true).allowRawQuery = true ∧
    validateDatabase (readOnlyConfig .mysql true) "shop" = .ok () ∧
    HasPrefix (ToUpper (fun c => c) (TrimSpace "DELETE FROM users")) "SELECT" = false ∧
    QueryRaw (readOnlyConfig .mysql true) (failingExecDatabase "" "connection lost")
        ⟨"shop", "DELETE FROM users", []⟩
      = ⟨[⟨"USE `shop`", []⟩], .error (.switchDatabaseFailed "shop" "connection lost")⟩ ∧
    HasPrefix (ToUpper (fun c => c) (TrimSpace "SELECT 1")) "SELECT" = true ∧
    QueryRaw (readOnlyConfig .mysql true) (failingExecDatabase "" "connection lost")
        ⟨"shop", "SELECT 1", []⟩
      = ⟨[⟨"USE `shop`", []⟩], .error (.switchDatabaseFailed "shop" "connection lost")⟩ :=
  ⟨rfl, rfl, rfl, by decide, rfl, by decide, rfl⟩

/-- C15 (amended): with `readOnly` true, raw queries enabled and an allowed
database, under Postgres, and under MySQL once the `USE` statement has
succeeded, `QueryRaw` returns the read-only error if and only if the query
text, trimmed and upper-cased, does not start with `SELECT`; a text that does
start with `SELECT` is issued to the database as given, with the caller's
parameters, as the next statement. -/
theorem QueryRaw_readOnly_gate (cfg : Config) (db : Database) (input : QueryRawInput)
    (hro : cfg.readOnly = true) (hraw : cfg.allowRawQuery = true)
    (hdb : validateDatabase cfg input.Database = .ok ())
    (hswitch : cfg.dbType = .postgres ∨
      ∃ affected, db.exec (useStatement input.Database) = .ok affected) :
    ((QueryRaw cfg db input).result = .error .readOnly ↔
      HasPrefix (ToUpper cfg.upperTable (TrimSpace input.Query)) "SELECT" = false) ∧
    (HasPrefix (ToUpper cfg.upperTable (TrimSpace input.Query)) "SELECT" = true →
      (QueryRaw cfg db input).issued
        = (if cfg.dbType = .mysql then [useStatement input.Database] else [])
            ++ [⟨input.Query, input.Params⟩]) := by
  by_cases hty : cfg.dbType = .mysql
  · have hex : ∃ affected, db.exec (useStatement input.Database) = .ok affected := by
      rcases hswitch with h | h
      · rw [hty] at h; exact DbType.noConfusion h
      · exact h
    obtain ⟨affected, hex⟩ := hex
    have hrun : QueryRaw cfg db input
        = QueryRawDispatch cfg db input [useStatement input.Database] := by
      simp only [QueryRaw, hraw, hdb, hty, hex, Bool.not_true, if_true, if_false,
        Bool.false_eq_true]
    rw [hrun, if_pos hty]
    exact ⟨(QueryRawDispatch_readOnly cfg db input _ hro).1,
      (QueryRawDispatch_readOnly cfg db input _ hro).2.2⟩
  · have hrun : QueryRaw cfg db input = QueryRawDispatch cfg db input [] := by
      simp only [QueryRaw, hraw, hdb, hty, Bool.not_true, if_false, Bool.false_eq_true]
    rw [hrun, if_neg hty]
    exact ⟨(QueryRawDispatch_readOnly cfg db input _ hro).1,
      (QueryRawDispatch_readOnly cfg db input _ hro).2.2⟩

/-- Witness for C15 (amended): under Postgres a lower-case, indented SELECT
passes the gate and is issued as given. -/
theorem QueryRaw_readOnly_gate_witness :
    (QueryRaw (readOnlyConfig .postgres true) (routineDatabase "")
        ⟨"shop", "  select * from users where id = $1", [.number 7]⟩).issued
      = (if (readOnlyConfig .postgres true).dbType = .mysql then [useStatement "shop"] else [])
          ++ [⟨"  select * from users where id = $1", [.number 7]⟩] :=
  (QueryRaw_readOnly_gate (readOnlyConfig .postgres true) (routineDatabase "")
    ⟨"shop", "  select * from users where id = $1", [.number 7]⟩ rfl rfl rfl
    (Or.inl rfl)).2 (by decide)

/-- C16 (as stated, refuted): under MySQL, read-only mode, raw queries enabled
and an allowed database, the non-SELECT request `DELETE FROM users` gets the
read-only error only after the handler has issued the `USE` statement. -/
theorem QueryRaw_readOnly_after_use :
    HasPrefix (ToUpper (fun c => c) (TrimSpace "DELETE FROM users")) "SELECT" = false ∧
    QueryRaw (readOnlyConfig .mysql true) (routineDatabase "")
        ⟨"shop", "DELETE FROM users", []⟩
      = ⟨[⟨"USE `shop`", []⟩], .error .readOnly⟩ :=
  ⟨by decide, rfl⟩

/-- C16 (amended): when `readOnly` is true, a raw request with non-SELECT text
(raw queries enabled, database allowed) is never executed: under Postgres it
fails with the read-only error and no SQL statement is issued; under MySQL the
handler issues the `USE` statement and nothing else, and then returns the
read-only error if the switch succeeded and the switch error if it failed. -/
theorem QueryRaw_readOnly_non_select (cfg : Config) (db : Database) (input : QueryRawInput)
    (hro : cfg.readOnly = true) (hraw : cfg.allowRawQuery = true)
    (hdb : validateDatabase cfg input.Database = .ok ())
    (hsel : HasPrefix (ToUpper cfg.upperTable (TrimSpace input.Query)) "SELECT" = false) :
    (cfg.dbType = .postgres → QueryRaw cfg db input = ⟨[], .error .readOnly⟩) ∧
    (cfg.dbType = .mysql →
      (∀ affected, db.exec (useStatement input.Database) = .ok affected →
        QueryRaw cfg db input = ⟨[useStatement input.Database], .error .readOnly⟩) ∧
      (∀ err, db.exec (useStatement input.Database) = .error err →
        QueryRaw cfg db input
          = ⟨[useStatement input.Database],
              .error (.switchDatabaseFailed input.Database err)⟩)) := by
  refine ⟨fun hty => ?_, fun hty => ⟨fun affected hex => ?_, fun err hex => ?_⟩⟩
  · have hne : ¬ cfg.dbType = .mysql := by rw [hty]; decide
    simp only [QueryRaw, hraw, hdb, hne, Bool.not_true, if_false, Bool.false_eq_true]
    exact (QueryRawDispatch_readOnly cfg db input [] hro).2.1 hsel
  · simp only [QueryRaw, hraw, hdb, hty, hex, Bool.not_true, if_true, if_false,
      Bool.false_eq_true]
    exact (QueryRawDispatch_readOnly cfg db input _ hro).2.1 hsel
  · simp only [QueryRaw, hraw, hdb, hty, hex, Bool.not_true, if_true, if_false,
      Bool.false_eq_true]

/-- Witness for C16 (amended): under Postgres nothing is issued. -/
theorem QueryRaw_readOnly_non_select_witness :
    QueryRaw (readOnlyConfig .postgres true) (routineDatabase "")
        ⟨"shop", "DROP TABLE users", []⟩ = ⟨[], .error .readOnly⟩ :=
  (QueryRaw_readOnly_non_select (readOnlyConfig .postgres true) (routineDatabase "")
    ⟨"shop", "DROP TABLE users", []⟩ rfl rfl rfl (by decide)).1 rfl

/-! ## Theorems: `ExecuteFunction` under read-only mode -/

theorem invokeRoutine_issued (db : Database) (issued : List Statement) (isProcedure : Bool)
    (name paramStr : String) (params : List Value) :
    (invokeRoutine db issued isProcedure name paramStr params).issued
      = issued ++
          [if isProcedure then (⟨"CALL " ++ name ++ "(" ++ paramStr ++ ")", params⟩ : Statement)
            else ⟨"SELECT " ++ name ++ "(" ++ paramStr ++ ") as result", params⟩] := by
  cases isProcedure
  · simp only [invokeRoutine, Bool.false_eq_true, if_false]
    cases db.queryRowValue ⟨"SELECT " ++ name ++ "(" ++ paramStr ++ ") as result", params⟩ <;> rfl
  · simp only [invokeRoutine, if_true]
    cases db.query ⟨"CALL " ++ name ++ "(" ++ paramStr ++ ")", params⟩ <;> rfl

/-- C19 (as stated, refuted): under MySQL with `readOnly` false, a target the
catalog reports as `FUNCTION` is not invoked when the `USE` statement fails:
the handler returns the driver's error after the type query and the `USE`
statement, and no `SELECT calc(...)` is issued. -/
theorem ExecuteFunction_not_invoked_on_switch_failure :
    (exampleConfig .mysql).readOnly = false ∧
    resolvesToProcedure (exampleConfig .mysql) "FUNCTION" = false ∧
    ExecuteFunction (exampleConfig .mysql) (failingExecDatabase "FUNCTION" "connection lost")
        ⟨"shop", "", "calc", [.number 100]⟩
      = ⟨[⟨typeQueryMySQL, [.string "shop", .string "calc"]⟩, ⟨"USE `shop`", []⟩],
          .error (.driver "connection lost")⟩ :=
  ⟨rfl, by decide, rfl⟩

/-- C19 (amended): for an allowed database and a target whose kind the type
query resolves: with `readOnly` true a procedure gets the read-only error
right after the type query, so no `CALL` is issued; in every other case (a
function under `readOnly`, either kind without it) the target is invoked as the
next statement under Postgres, and under MySQL as the statement after `USE`
provided `USE` succeeds, while a failing `USE` ends the call with the driver's
error and without invocation. -/
theorem ExecuteFunction_readOnly_gate (cfg : Config) (db : Database)
    (input : ExecuteFunctionInput) (kind : String)
    (hdb : validateDatabase cfg input.Database = .ok ())
    (hkind : db.queryRowString (typeStatement cfg input) = .ok kind) :
    (cfg.readOnly = true → resolvesToProcedure cfg kind = true →
      ExecuteFunction cfg db input
        = ⟨[typeStatement cfg input], .error .proceduresNotAllowed⟩) ∧
    ((cfg.readOnly = false ∨ resolvesToProcedure cfg kind = false) →
      (cfg.dbType = .postgres →
        (ExecuteFunction cfg db input).issued
          = [typeStatement cfg input,
              invocationStatement cfg input (resolvesToProcedure cfg kind)]) ∧
      (cfg.dbType = .mysql →
        (∀ affected, db.exec (useStatement input.Database) = .ok affected →
          (ExecuteFunction cfg db input).issued
            = [typeStatement cfg input, useStatement input.Database,
                invocationStatement cfg input (resolvesToProcedure cfg kind)]) ∧
        (∀ err, db.exec (useStatement input.Database) = .error err →
          ExecuteFunction cfg db input
            = ⟨[typeStatement cfg input, useStatement input.Database],
                .error (.driver err)⟩))) := by
  refine ⟨fun hro hproc => ?_, fun hgo => ⟨fun hty => ?_, fun hty => ⟨fun affected hex => ?_,
    fun err hex => ?_⟩⟩⟩
  · by_cases hty : cfg.dbType = .postgres
    · simp only [resolvesToProcedure, hty, if_true] at hproc
      simp only [ExecuteFunction, hdb, hty, hkind, hproc, hro, if_true, Bool.and_self]
    · simp only [resolvesToProcedure, hty, if_false] at hproc
      simp only [ExecuteFunction, hdb, hty, hkind, hproc, hro, if_true, if_false, Bool.and_self]
  · have hgate : (decide (kind = "p") && cfg.readOnly) = false := by
      rcases hgo with h | h
      · simp [h]
      · simp only [resolvesToProcedure, hty, if_true] at h
        simp [h]
    simp only [ExecuteFunction, hdb, hty, hkind, hgate, if_true, if_false, Bool.false_eq_true,
      invokeRoutine_issued, invocationStatement, resolvesToProcedure]
    cases hk : decide (kind = "p") <;> simp
  · have hne : ¬ cfg.dbType = .postgres := by rw [hty]; decide
    have hgate : (decide (kind = "PROCEDURE") && cfg.readOnly) = false := by
      rcases hgo with h | h
      · simp [h]
      · simp only [resolvesToProcedure, hne, if_false] at h
        simp [h]
    simp only [ExecuteFunction, hdb, hne, hkind, hgate, hex, if_false, Bool.false_eq_true,
      invokeRoutine_issued, invocationStatement, resolvesToProcedure]
    cases hk : decide (kind = "PROCEDURE") <;> simp
  · have hne : ¬ cfg.dbType = .postgres := by rw [hty]; decide
    have hgate : (decide (kind = "PROCEDURE") && cfg.readOnly) = false := by
      rcases hgo with h | h
      · simp [h]
      · simp only [resolvesToProcedure, hne, if_false] at h
        simp [h]
    simp only [ExecuteFunction, hdb, hne, hkind, hgate, hex, if_false, Bool.false_eq_true]

/-- Witness for C19 (amended): under Postgres in read-only mode the procedure
`public.calc` is refused after the type query alone. -/
theorem ExecuteFunction_readOnly_gate_witness :
    ExecuteFunction (readOnlyConfig .postgres true) (routineDatabase "p")
        ⟨"shop", "", "calc", [.number 100]⟩
      = ⟨[typeStatement (readOnlyConfig .postgres true) ⟨"shop", "", "calc", [.number 100]⟩],
          .error .proceduresNotAllowed⟩ :=
  (ExecuteFunction_readOnly_gate (readOnlyConfig .postgres true) (routineDatabase "p")
    ⟨"shop", "", "calc", [.number 100]⟩ "p" rfl rfl).1 rfl (by decide)

/-! ## Theorems: the allowlist in front of every operation -/

/-- C12 (as stated, refuted): for the database `nope`, which is not on the
allowlist, an insert in read-only mode fails with the read-only error, a raw
query with raw queries disabled fails with the raw-query-disabled error, and
`GetCustomTypes` under MySQL does not fail at all: it returns its message. -/
theorem not_allowed_database_other_answers :
    "nope" ∉ (readOnlyConfig .mysql false).dbNames ∧
    QueryInsert (readOnlyConfig .mysql false) (routineDatabase "")
        ⟨"nope", "users", "", [("name", .string "x")]⟩ = ⟨[], .error .readOnly⟩ ∧
    QueryRaw (readOnlyConfig .mysql false) (routineDatabase "") ⟨"nope", "SELECT 1", []⟩
      = ⟨[], .error .rawQueryBlocked⟩ ∧
    GetCustomTypes (readOnlyConfig .mysql false) (routineDatabase "") ⟨"nope", ""⟩
      = ⟨[], .ok (.text "Custom types are only supported in PostgreSQL")⟩ :=
  ⟨by decide, rfl, rfl, rfl⟩

/-- C12 (amended): for a database name that is not on the allowlist no
operation issues any SQL statement, and: select, list-tables,
get-table-schema, get-sequences, get-functions, get-function-source and
execute-function fail with the access-denied error under every dialect and
configuration; insert, update and delete fail with the access-denied error
unless `readOnly` is set, in which case they fail with the read-only error; raw
fails with the access-denied error if raw queries are enabled and with the
raw-query-disabled error otherwise; get-custom-types fails with the
access-denied error under Postgres and returns its "only supported in
PostgreSQL" message under MySQL. -/
theorem not_allowed_database_rejected (cfg : Config) (db : Database) (database : String)
    (hnot : database ∉ cfg.dbNames) :
    (∀ input : QuerySelectInput, input.Database = database →
      QuerySelect cfg db input = ⟨[], .error (.accessDenied database cfg.dbNames)⟩) ∧
    (∀ input : GetTablesInput, input.Database = database →
      GetTables cfg db input = ⟨[], .error (.accessDenied database cfg.dbNames)⟩) ∧
    (∀ input : GetTableSchemaInput, input.Database = database →
      GetTableSchema cfg db input = ⟨[], .error (.accessDenied database cfg.dbNames)⟩) ∧
    (∀ input : GetSequencesInput, input.Database = database →
      GetSequences cfg db input = ⟨[], .error (.accessDenied database cfg.dbNames)⟩) ∧
    (∀ input : GetFunctionsInput, input.Database = database →
      GetFunctions cfg db input = ⟨[], .error (.accessDenied database cfg.dbNames)⟩) ∧
    (∀ input : GetFunctionSourceInput, input.Database = database →
      GetFunctionSource cfg db input = ⟨[], .error (.accessDenied database cfg.dbNames)⟩) ∧
    (∀ input : ExecuteFunctionInput, input.Database = database →
      ExecuteFunction cfg db input = ⟨[], .error (.accessDenied database cfg.dbNames)⟩) ∧
    (∀ input : QueryInsertInput, input.Database = database →
      QueryInsert cfg db input
        = ⟨[], .error (if cfg.readOnly then .readOnly
            else .accessDenied database cfg.dbNames)⟩) ∧
    (∀ input : QueryUpdateInput, input.Database = database →
      QueryUpdate cfg db input
        = ⟨[], .error (if cfg.readOnly then .readOnly
            else .accessDenied database cfg.dbNames)⟩) ∧
    (∀ input : QueryDeleteInput, input.Database = database →
      QueryDelete cfg db input
        = ⟨[], .error (if cfg.readOnly then .readOnly
            else .accessDenied database cfg.dbNames)⟩) ∧
    (∀ input : QueryRawInput, input.Database = database →
      QueryRaw cfg db input
        = ⟨[], .error (if cfg.allowRawQuery then .accessDenied database cfg.dbNames
            else .rawQueryBlocked)⟩) ∧
    (∀ input : GetCustomTypesInput, input.Database = database →
      GetCustomTypes cfg db input
        = match cfg.dbType with
          | .postgres => ⟨[], .error (.accessDenied database cfg.dbNames)⟩
          | .mysql => ⟨[], .ok (.text "Custom types are only supported in PostgreSQL")⟩) := by
  have hden := validateDatabase_of_not_mem cfg database hnot
  refine ⟨?_, ?_, ?_, ?_, ?_, ?_, ?_, ?_, ?_, ?_, ?_, ?_⟩
  · rintro input rfl
    simp only [QuerySelect, hden]
  · rintro input rfl
    simp only [GetTables, hden]
  · rintro input rfl
    simp only [GetTableSchema, hden]
  · rintro input rfl
    simp only [GetSequences, hden]
  · rintro input rfl
    simp only [GetFunctions, hden]
  · rintro input rfl
    simp only [GetFunctionSource, hden]
  · rintro input rfl
    simp only [ExecuteFunction, hden]
  · rintro input rfl
    cases hro : cfg.readOnly <;> simp [QueryInsert, hden, hro]
  · rintro input rfl
    cases hro : cfg.readOnly <;> simp [QueryUpdate, hden, hro]
  · rintro input rfl
    cases hro : cfg.readOnly <;> simp [QueryDelete, hden, hro]
  · rintro input rfl
    cases hraw : cfg.allowRawQuery <;> simp [QueryRaw, hden, hraw]
  · rintro input rfl
    cases hty : cfg.dbType <;> simp [GetCustomTypes, hden, hty]

/-- Witness for C12 (amended): `GetTables` for a database that is not on the
allowlist. -/
theorem not_allowed_database_rejected_witness :
    GetTables (exampleConfig .mysql) (routineDatabase "") ⟨"nope", ""⟩
      = ⟨[], .error (.accessDenied "nope" ["shop"])⟩ :=
  (not_allowed_database_rejected (exampleConfig .mysql) (routineDatabase "") "nope"
    (by decide)).2.1 ⟨"nope", ""⟩ rfl

/-! ## Theorems: operator dispatch -/

theorem applyWhereConditions_single (upperTable : Char → Char) (query : SelectBuilder)
    (clause : WhereClause) :
    applyWhereConditions upperTable query [clause]
      = if sanitizeIdentifier clause.Column = "" then query
        else query.Where (whereNodeSelect (sanitizeIdentifier clause.Column)
          (ToUpper upperTable clause.Op) clause.Value) := by
  by_cases h : sanitizeIdentifier clause.Column = "" <;> simp [applyWhereConditions, h]

theorem applyWhereConditionsUpdate_single (upperTable : Char → Char) (query : UpdateBuilder)
    (clause : WhereClause) :
    applyWhereConditionsUpdate upperTable query [clause]
      = if sanitizeIdentifier clause.Column = "" then query
        else query.Where (whereNodeMutate (sanitizeIdentifier clause.Column)
          (ToUpper upperTable clause.Op) clause.Value) := by
  by_cases h : sanitizeIdentifier clause.Column = "" <;> simp [applyWhereConditionsUpdate, h]

theorem applyWhereConditionsDelete_single (upperTable : Char → Char) (query : DeleteBuilder)
    (clause : WhereClause) :
    applyWhereConditionsDelete upperTable query [clause]
      = if sanitizeIdentifier clause.Column = "" then query
        else query.Where (whereNodeMutate (sanitizeIdentifier clause.Column)
          (ToUpper upperTable clause.Op) clause.Value) := by
  by_cases h : sanitizeIdentifier clause.Column = "" <;> simp [applyWhereConditionsDelete, h]

theorem ToUpper_idempotent (upperTable : Char → Char)
    (hidem : ∀ r, unicodeToUpper upperTable (unicodeToUpper upperTable r)
      = unicodeToUpper upperTable r) (s : String) :
    ToUpper upperTable (ToUpper upperTable s) = ToUpper upperTable s := by
  simp only [ToUpper, List.map_map]
  congr 1
  apply List.map_congr_left
  intro r _
  exact hidem r

theorem unicodeToUpper_ascii (upperTable : Char → Char) (r : Char) (h : r.toNat ≤ 0x7F) :
    (unicodeToUpper upperTable r).toNat ≤ 0x7F ∧
    unicodeToUpper upperTable (unicodeToUpper upperTable r) = unicodeToUpper upperTable r := by
  have hr : r = Char.ofNat r.toNat := (Char.ofNat_toNat r).symm
  generalize r.toNat = n at h hr
  subst hr
  have hn : n < 128 := by omega
  clear h
  interval_cases n <;> exact ⟨Nat.le_of_ble_eq_true rfl, rfl⟩

/-- Upper-casing twice is upper-casing once for every case table whose image
of a non-ASCII character is a character that upper-casing leaves alone: Go's
table is of this kind. -/
theorem unicodeToUpper_idempotent_of_fixed (upperTable : Char → Char)
    (hfix : ∀ r : Char, ¬ r.toNat ≤ 0x7F →
      unicodeToUpper upperTable (upperTable r) = upperTable r)
    (r : Char) :
    unicodeToUpper upperTable (unicodeToUpper upperTable r) = unicodeToUpper upperTable r := by
  by_cases h : r.toNat ≤ 0x7F
  · exact (unicodeToUpper_ascii upperTable r h).2
  · have h1 : unicodeToUpper upperTable r = upperTable r := by
      simp only [unicodeToUpper, h, if_false]
    rw [h1]
    exact hfix r h

theorem unicodeToUpper_identity_table (r : Char) :
    unicodeToUpper (fun c => c) (unicodeToUpper (fun c => c) r)
      = unicodeToUpper (fun c => c) r :=
  unicodeToUpper_idempotent_of_fixed (fun c => c)
    (fun r h => by simp only [unicodeToUpper, h, if_false]) r

/-- C21: operator dispatch is case-insensitive and aliases collapse. For a case
table on which upper-casing twice is upper-casing once (Go's `unicode.ToUpper`),
a clause compiles, in each of the three compilers, to the same builder as the
clause with its operator upper-cased; and for every table `<>` compiles as
`!=`, `ILIKE` as `LIKE`, `IN` as `=` and `NOT IN` as `!=`, the node holding the
clause value as it is. -/
theorem operator_dispatch_case_insensitive (upperTable : Char → Char)
    (hidem : ∀ r, unicodeToUpper upperTable (unicodeToUpper upperTable r)
      = unicodeToUpper upperTable r)
    (column op : String) (value : Value) :
    (∀ query : SelectBuilder,
      applyWhereConditions upperTable query [⟨column, op, value⟩]
        = applyWhereConditions upperTable query [⟨column, ToUpper upperTable op, value⟩]) ∧
    (∀ query : UpdateBuilder,
      applyWhereConditionsUpdate upperTable query [⟨column, op, value⟩]
        = applyWhereConditionsUpdate upperTable query
            [⟨column, ToUpper upperTable op, value⟩]) ∧
    (∀ query : DeleteBuilder,
      applyWhereConditionsDelete upperTable query [⟨column, op, value⟩]
        = applyWhereConditionsDelete upperTable query
            [⟨column, ToUpper upperTable op, value⟩]) ∧
    (∀ query : SelectBuilder,
      applyWhereConditions upperTable query [⟨column, "<>", value⟩]
        = applyWhereConditions upperTable query [⟨column, "!=", value⟩] ∧
      applyWhereConditions upperTable query [⟨column, "ILIKE", value⟩]
        = applyWhereConditions upperTable query [⟨column, "LIKE", value⟩] ∧
      applyWhereConditions upperTable query [⟨column, "IN", value⟩]
        = applyWhereConditions upperTable query [⟨column, "=", value⟩] ∧
      applyWhereConditions upperTable query [⟨column, "NOT IN", value⟩]
        = applyWhereConditions upperTable query [⟨column, "!=", value⟩]) ∧
    (∀ query : UpdateBuilder,
      applyWhereConditionsUpdate upperTable query [⟨column, "<>", value⟩]
        = applyWhereConditionsUpdate upperTable query [⟨column, "!=", value⟩] ∧
      applyWhereConditionsUpdate upperTable query [⟨column, "ILIKE", value⟩]
        = applyWhereConditionsUpdate upperTable query [⟨column, "LIKE", value⟩] ∧
      applyWhereConditionsUpdate upperTable query [⟨column, "IN", value⟩]
        = applyWhereConditionsUpdate upperTable query [⟨column, "=", value⟩] ∧
      applyWhereConditionsUpdate upperTable query [⟨column, "NOT IN", value⟩]
        = applyWhereConditionsUpdate upperTable query [⟨column, "!=", value⟩]) ∧
    (∀ query : DeleteBuilder,
      applyWhereConditionsDelete upperTable query [⟨column, "<>", value⟩]
        = applyWhereConditionsDelete upperTable query [⟨column, "!=", value⟩] ∧
      applyWhereConditionsDelete upperTable query [⟨column, "ILIKE", value⟩]
        = applyWhereConditionsDelete upperTable query [⟨column, "LIKE", value⟩] ∧
      applyWhereConditionsDelete upperTable query [⟨column, "IN", value⟩]
        = applyWhereConditionsDelete upperTable query [⟨column, "=", value⟩] ∧
      applyWhereConditionsDelete upperTable query [⟨column, "NOT IN", value⟩]
        = applyWhereConditionsDelete upperTable query [⟨column, "!=", value⟩]) ∧
    (∀ col : String,
      whereNodeSelect col "IN" value = .Eq col value ∧
      whereNodeSelect col "NOT IN" value = .NotEq col value ∧
      whereNodeMutate col "IN" value = .Eq col value ∧
      whereNodeMutate col "NOT IN" value = .NotEq col value) := by
  have hup := ToUpper_idempotent upperTable hidem op
  refine ⟨fun query => ?_, fun query => ?_, fun query => ?_, fun query => ⟨?_, ?_, ?_, ?_⟩,
    fun query => ⟨?_, ?_, ?_, ?_⟩, fun query => ⟨?_, ?_, ?_, ?_⟩, fun col => ⟨rfl, rfl, rfl, rfl⟩⟩
  · simp only [applyWhereConditions_single, hup]
  · simp only [applyWhereConditionsUpdate_single, hup]
  · simp only [applyWhereConditionsDelete_single, hup]
  all_goals first
    | (simp only [applyWhereConditions_single]; rfl)
    | (simp only [applyWhereConditionsUpdate_single]; rfl)
    | (simp only [applyWhereConditionsDelete_single]; rfl)

/-- Witness for C21: with a case table that leaves non-ASCII characters alone,
`like` in mixed case compiles as `LIKE`. -/
theorem operator_dispatch_case_insensitive_witness :
    applyWhereConditions (fun c => c) (selectFrom (exampleConfig .mysql) ["*"] "users")
        [⟨"name", "LiKe", .string "a%"⟩]
      = applyWhereConditions (fun c => c) (selectFrom (exampleConfig .mysql) ["*"] "users")
        [⟨"name", ToUpper (fun c => c) "LiKe", .string "a%"⟩] :=
  (operator_dispatch_case_insensitive (fun c => c)
    unicodeToUpper_identity_table
    "name" "LiKe" (.string "a%")).1 _

/-- C22: for `IS NULL` and `IS NOT NULL` the supplied value has no influence: in
each of the three compilers the clause compiles, whatever its value is, to the
builder extended by equality resp. inequality of the sanitized column with
`NULL` (and to the unchanged builder when the column is rejected). -/
theorem is_null_ignores_value (upperTable : Char → Char) (column : String) (v1 v2 : Value) :
    (∀ query : SelectBuilder,
      applyWhereConditions upperTable query [⟨column, "IS NULL", v1⟩]
        = applyWhereConditions upperTable query [⟨column, "IS NULL", v2⟩] ∧
      applyWhereConditions upperTable query [⟨column, "IS NOT NULL", v1⟩]
        = applyWhereConditions upperTable query [⟨column, "IS NOT NULL", v2⟩] ∧
      applyWhereConditions upperTable query [⟨column, "IS NULL", v1⟩]
        = (if sanitizeIdentifier column = "" then query
            else query.Where (.Eq (sanitizeIdentifier column) .null)) ∧
      applyWhereConditions upperTable query [⟨column, "IS NOT NULL", v1⟩]
        = (if sanitizeIdentifier column = "" then query
            else query.Where (.NotEq (sanitizeIdentifier column) .null))) ∧
    (∀ query : UpdateBuilder,
      applyWhereConditionsUpdate upperTable query [⟨column, "IS NULL", v1⟩]
        = applyWhereConditionsUpdate upperTable query [⟨column, "IS NULL", v2⟩] ∧
      applyWhereConditionsUpdate upperTable query [⟨column, "IS NOT NULL", v1⟩]
        = applyWhereConditionsUpdate upperTable query [⟨column, "IS NOT NULL", v2⟩] ∧
      applyWhereConditionsUpdate upperTable query [⟨column, "IS NULL", v1⟩]
        = (if sanitizeIdentifier column = "" then query
            else query.Where (.Eq (sanitizeIdentifier column) .null)) ∧
      applyWhereConditionsUpdate upperTable query [⟨column, "IS NOT NULL", v1⟩]
        = (if sanitizeIdentifier column = "" then query
            else query.Where (.NotEq (sanitizeIdentifier column) .null))) ∧
    (∀ query : DeleteBuilder,
      applyWhereConditionsDelete upperTable query [⟨column, "IS NULL", v1⟩]
        = applyWhereConditionsDelete upperTable query [⟨column, "IS NULL", v2⟩] ∧
      applyWhereConditionsDelete upperTable query [⟨column, "IS NOT NULL", v1⟩]
        = applyWhereConditionsDelete upperTable query [⟨column, "IS NOT NULL", v2⟩] ∧
      applyWhereConditionsDelete upperTable query [⟨column, "IS NULL", v1⟩]
        = (if sanitizeIdentifier column = "" then query
            else query.Where (.Eq (sanitizeIdentifier column) .null)) ∧
      applyWhereConditionsDelete upperTable query [⟨column, "IS NOT NULL", v1⟩]
        = (if sanitizeIdentifier column = "" then query
            else query.Where (.NotEq (sanitizeIdentifier column) .null))) := by
  refine ⟨fun query => ⟨?_, ?_, ?_, ?_⟩, fun query => ⟨?_, ?_, ?_, ?_⟩,
    fun query => ⟨?_, ?_, ?_, ?_⟩⟩
  all_goals first
    | (simp only [applyWhereConditions_single]; rfl)
    | (simp only [applyWhereConditionsUpdate_single]; rfl)
    | (simp only [applyWhereConditionsDelete_single]; rfl)

theorem whereNode_fallback (col op : String) (value : Value) (hop : op ∉ fixedOperatorTable) :
    whereNodeSelect col op value = .Expr (col ++ " " ++ op ++ " ?") [value] ∧
    whereNodeMutate col op value = .Expr (col ++ " " ++ op ++ " ?") [value] := by
  simp only [fixedOperatorTable, List.mem_cons, List.mem_singleton, List.not_mem_nil, or_false,
    not_or] at hop
  obtain ⟨h1, h2, h3, h4, h5, h6, h7, h8, h9, h10, h11, h12, h13, h14⟩ := hop
  simp only [whereNodeSelect, whereNodeMutate, h1, h2, h3, h4, h5, h6, h7, h8, h9, h10, h11,
    h12, h13, h14, if_false, or_self, and_self]

/-- C23: for a clause whose column passes sanitization and whose upper-cased
operator is outside the fixed operator table, each of the three compilers adds
the node `Expr` with the text made of the sanitized column, a blank, the
upper-cased operator as it is, a blank and one question mark, and with the
clause value as its only argument; the node renders to that text with that one
bound parameter, so the text does not depend on the value. -/
theorem fallback_operator_expression (upperTable : Char → Char) (clause : WhereClause)
    (hcol : sanitizeIdentifier clause.Column ≠ "")
    (hop : ToUpper upperTable clause.Op ∉ fixedOperatorTable) :
    (∀ query : SelectBuilder,
      applyWhereConditions upperTable query [clause]
        = query.Where (.Expr (sanitizeIdentifier clause.Column ++ " " ++
            ToUpper upperTable clause.Op ++ " ?") [clause.Value])) ∧
    (∀ query : UpdateBuilder,
      applyWhereConditionsUpdate upperTable query [clause]
        = query.Where (.Expr (sanitizeIdentifier clause.Column ++ " " ++
            ToUpper upperTable clause.Op ++ " ?") [clause.Value])) ∧
    (∀ query : DeleteBuilder,
      applyWhereConditionsDelete upperTable query [clause]
        = query.Where (.Expr (sanitizeIdentifier clause.Column ++ " " ++
            ToUpper upperTable clause.Op ++ " ?") [clause.Value])) ∧
    (Sqlizer.Expr (sanitizeIdentifier clause.Column ++ " " ++
        ToUpper upperTable clause.Op ++ " ?") [clause.Value]).ToSql
      = .ok ⟨sanitizeIdentifier clause.Column ++ " " ++ ToUpper upperTable clause.Op ++ " ?",
          [clause.Value]⟩ := by
  have hnode := whereNode_fallback (sanitizeIdentifier clause.Column)
    (ToUpper upperTable clause.Op) clause.Value hop
  refine ⟨fun query => ?_, fun query => ?_, fun query => ?_, rfl⟩
  · rw [applyWhereConditions_single, if_neg hcol, hnode.1]
  · rw [applyWhereConditionsUpdate_single, if_neg hcol, hnode.2]
  · rw [applyWhereConditionsDelete_single, if_neg hcol, hnode.2]

/-- Witness for C23: the regular-expression operator `~*` on the column
`name`, rendered in a SELECT under Postgres. -/
theorem fallback_operator_expression_witness :
    (applyWhereConditions (fun c => c) (selectFrom (exampleConfig .postgres) ["*"] "users")
        [⟨" name", "~*", .string "^a"⟩]).ToSql
      = .ok ⟨"SELECT * FROM users WHERE name ~* $1", [.string "^a"]⟩ :=
  ((fallback_operator_expression (fun c => c) ⟨" name", "~*", .string "^a"⟩ (by decide)
    (by decide)).1 (selectFrom (exampleConfig .postgres) ["*"] "users")) ▸ rfl

/-! ## Theorems: the two dialects -/

theorem replacePositionalPlaceholders_eq_dollarNumbered :
    ∀ (text : List Char) (i : Nat), hasDoubledQuestion text = false →
      replacePositionalPlaceholders "$" text i = dollarNumbered text i
  | [], _, _ => by simp [replacePositionalPlaceholders, dollarNumbered]
  | [c], i, _ => by
    by_cases hc : c = '?'
    · subst hc
      simp [replacePositionalPlaceholders, dollarNumbered]
    · simp [replacePositionalPlaceholders, dollarNumbered, hc]
  | c :: d :: rest, i, h => by
    have hrest : hasDoubledQuestion (d :: rest) = false := by
      simp only [hasDoubledQuestion, Bool.or_eq_false_iff] at h
      exact h.2
    rw [dollarNumbered]
    by_cases hc : c = '?'
    · subst hc
      have hd : d ≠ '?' := by
        intro hd
        subst hd
        simp [hasDoubledQuestion] at h
      rw [if_pos rfl, replacePositionalPlaceholders]
      · rw [replacePositionalPlaceholders_eq_dollarNumbered (d :: rest) (i + 1) hrest]
      · intro rest' heq
        simp only [List.cons.injEq, true_and] at heq
        exact hd heq.1
    · rw [if_neg hc, replacePositionalPlaceholders]
      · rw [replacePositionalPlaceholders_eq_dollarNumbered (d :: rest) i hrest]
      all_goals
        intro heq
        first
          | exact hc heq
          | (intro heq2; exact absurd heq2 hc)

theorem SelectBuilder_ToSql_format (d : SelectBuilder) (f : PlaceholderFormat) :
    ({ d with PlaceholderFormat := f }).ToSql
      = match ({ d with PlaceholderFormat := .Question }).ToSql with
        | .error err => .error err
        | .ok stmt => .ok ⟨f.ReplacePlaceholders stmt.sql, stmt.args⟩ := by
  simp only [SelectBuilder.ToSql]
  by_cases hc : (d.Columns.length == 0) = true
  · simp only [hc, if_true]
  · simp only [hc, if_false, Bool.false_eq_true]
    generalize appendToSql ", " (d.Columns.map stringPart) 0 "SELECT " [] = r1
    rcases r1 with err | ⟨sql1, args1⟩
    · rfl
    · simp only []
      generalize (match d.From with
        | none => (Except.ok (sql1, args1) : Except String (String × List Value))
        | some frm => appendToSql "" [stringPart frm] 0 (sql1 ++ " FROM ") args1) = r2
      rcases r2 with err | ⟨sql2, args2⟩
      · rfl
      · simp only []
        generalize (if d.WhereParts.length > 0 then
            appendToSql " AND " (d.WhereParts.map Sqlizer.ToSql) 0 (sql2 ++ " WHERE ") args2
          else .ok (sql2, args2)) = r3
        rcases r3 with err | ⟨sql3, args3⟩
        · rfl
        · simp only []
          generalize (if d.OrderByParts.length > 0 then
              appendToSql ", " (d.OrderByParts.map stringPart) 0 (sql3 ++ " ORDER BY ") args3
            else .ok (sql3, args3)) = r4
          rcases r4 with err | ⟨sql4, args4⟩
          · rfl
          · simp only [PlaceholderFormat.ReplacePlaceholders]

theorem applyWhereConditions_format (upperTable : Char → Char) (query : SelectBuilder)
    (clauses : List WhereClause) (f : PlaceholderFormat) :
    applyWhereConditions upperTable { query with PlaceholderFormat := f } clauses
      = { applyWhereConditions upperTable query clauses with PlaceholderFormat := f } := by
  simp only [applyWhereConditions_eq]

/-- C24 (as stated, refuted): for the clause `tags ?? x`, whose operator falls
to the fallback, the MySQL text has three question marks and the Postgres text
is not that text with its k-th question mark replaced by `$k`: squirrel reads
the doubled question mark as an escaped one. -/
theorem postgres_text_not_kth_replacement :
    (applyWhereConditions (fun c => c) (selectFrom (exampleConfig .mysql) ["*"] "docs")
        [⟨"tags", "??", .string "x"⟩]).ToSql
      = .ok ⟨"SELECT * FROM docs WHERE tags ?? ?", [.string "x"]⟩ ∧
    (applyWhereConditions (fun c => c) (selectFrom (exampleConfig .postgres) ["*"] "docs")
        [⟨"tags", "??", .string "x"⟩]).ToSql
      = .ok ⟨"SELECT * FROM docs WHERE tags ? $1", [.string "x"]⟩ ∧
    String.mk (dollarNumbered "SELECT * FROM docs WHERE tags ?? ?".data 0)
      = "SELECT * FROM docs WHERE tags $1$2 $3" ∧
    String.mk (dollarNumbered "SELECT * FROM docs WHERE tags ?? ?".data 0)
      ≠ "SELECT * FROM docs WHERE tags ? $1" := by
  refine ⟨rfl, rfl, by decide, by decide⟩

/-- C24 (amended): for every filter clause list and every SELECT builder, the
statement renders under Postgres exactly when it renders under MySQL, with the
same parameter list, and the Postgres text is the MySQL text passed through
squirrel's dollar replacement (left to right, a doubled question mark becomes
one literal question mark, every other question mark becomes `$k` with
k = 1, 2, ... in order); when the MySQL text has no doubled question mark, this
is the MySQL text with its k-th question mark replaced by `$k`. -/
theorem dialects_differ_in_placeholder_spelling (upperTable : Char → Char)
    (query : SelectBuilder) (clauses : List WhereClause) :
    (∀ err,
      (applyWhereConditions upperTable { query with PlaceholderFormat := .Question }
          clauses).ToSql = .error err →
      (applyWhereConditions upperTable { query with PlaceholderFormat := .Dollar }
          clauses).ToSql = .error err) ∧
    (∀ sql args,
      (applyWhereConditions upperTable { query with PlaceholderFormat := .Question }
          clauses).ToSql = .ok ⟨sql, args⟩ →
      (applyWhereConditions upperTable { query with PlaceholderFormat := .Dollar }
          clauses).ToSql
        = .ok ⟨String.mk (replacePositionalPlaceholders "$" sql.data 0), args⟩ ∧
      (hasDoubledQuestion sql.data = false →
        (applyWhereConditions upperTable { query with PlaceholderFormat := .Dollar }
            clauses).ToSql
          = .ok ⟨String.mk (dollarNumbered sql.data 0), args⟩)) := by
  have hfmt := SelectBuilder_ToSql_format (applyWhereConditions upperTable query clauses) .Dollar
  rw [← applyWhereConditions_format, ← applyWhereConditions_format] at hfmt
  refine ⟨fun err herr => ?_, fun sql args hok => ?_⟩
  · rw [hfmt, herr]
  · have hpg : (applyWhereConditions upperTable { query with PlaceholderFormat := .Dollar }
          clauses).ToSql
        = .ok ⟨String.mk (replacePositionalPlaceholders "$" sql.data 0), args⟩ := by
      rw [hfmt, hok]
      rfl
    refine ⟨hpg, fun hno => ?_⟩
    rw [hpg, replacePositionalPlaceholders_eq_dollarNumbered sql.data 0 hno]

/-- Witness for C24 (amended): two clauses on `users`. -/
theorem dialects_differ_in_placeholder_spelling_witness :
    (applyWhereConditions (fun c => c)
        { selectFrom (exampleConfig .mysql) ["*"] "users" with PlaceholderFormat := .Dollar }
        [⟨"id", "=", .number 7⟩, ⟨"name", "like", .string "a%"⟩]).ToSql
      = .ok ⟨String.mk (dollarNumbered
          "SELECT * FROM users WHERE id = ? AND name LIKE ?".data 0),
          [.number 7, .string "a%"]⟩ :=
  ((dialects_differ_in_placeholder_spelling (fun c => c)
    (selectFrom (exampleConfig .mysql) ["*"] "users")
    [⟨"id", "=", .number 7⟩, ⟨"name", "like", .string "a%"⟩]).2
    "SELECT * FROM users WHERE id = ? AND name LIKE ?" [.number 7, .string "a%"] rfl).2
    (by decide)

/-! ## Theorems: the placeholders of `ExecuteFunction` -/

theorem ExecuteFunction_issued_invocation (cfg : Config) (db : Database)
    (input : ExecuteFunctionInput) (kind : String)
    (hdb : validateDatabase cfg input.Database = .ok ())
    (hkind : db.queryRowString (typeStatement cfg input) = .ok kind)
    (hgo : cfg.readOnly = false ∨ resolvesToProcedure cfg kind = false)
    (hswitch : cfg.dbType = .postgres ∨
      ∃ affected, db.exec (useStatement input.Database) = .ok affected) :
    (ExecuteFunction cfg db input).issued
      = (if cfg.dbType = .postgres then [typeStatement cfg input]
          else [typeStatement cfg input, useStatement input.Database])
        ++ [invocationStatement cfg input (resolvesToProcedure cfg kind)] := by
  by_cases hty : cfg.dbType = .postgres
  · have hgate : (decide (kind = "p") && cfg.readOnly) = false := by
      rcases hgo with h | h
      · simp [h]
      · simp only [resolvesToProcedure, hty, if_true] at h
        simp [h]
    simp only [ExecuteFunction, hdb, hty, hkind, hgate, if_true, if_false, Bool.false_eq_true,
      invokeRoutine_issued, invocationStatement, resolvesToProcedure]
  · have hex : ∃ affected, db.exec (useStatement input.Database) = .ok affected := by
      rcases hswitch with h | h
      · exact absurd h hty
      · exact h
    obtain ⟨affected, hex⟩ := hex
    have hgate : (decide (kind = "PROCEDURE") && cfg.readOnly) = false := by
      rcases hgo with h | h
      · simp [h]
      · simp only [resolvesToProcedure, hty, if_false] at h
        simp [h]
    simp only [ExecuteFunction, hdb, hty, hkind, hgate, hex, if_false, Bool.false_eq_true,
      invokeRoutine_issued, invocationStatement, resolvesToProcedure]

theorem dollarPlaceholders_getElem? (n i : Nat) (h : i < n) :
    (dollarPlaceholders n)[i]? = some ("$" ++ toString (i + 1)) := by
  simp [dollarPlaceholders, List.getElem?_range h]

/-- C25: for a parameter list of length n, the statement with which
`ExecuteFunction` invokes its target is `CALL name(list)` or
`SELECT name(list) as result`, where `list` joins with `, ` the n placeholders
`$1`, ..., `$n` (the i-th, counting from 1, being `$i`) under Postgres and n
question marks under MySQL, and is empty for n = 0; its bound parameters are
the caller's parameters, unchanged and in order; and this statement is the one
the handler issues whenever it invokes the target. -/
theorem ExecuteFunction_placeholders (cfg : Config) (input : ExecuteFunctionInput)
    (isProcedure : Bool) :
    (dollarPlaceholders input.Params.length).length = input.Params.length ∧
    (∀ i, i < input.Params.length →
      (dollarPlaceholders input.Params.length)[i]? = some ("$" ++ toString (i + 1))) ∧
    questionPlaceholders input.Params.length = List.replicate input.Params.length "?" ∧
    (invocationStatement cfg input isProcedure).args = input.Params ∧
    (invocationStatement cfg input isProcedure).sql
      = (if isProcedure then "CALL " else "SELECT ") ++
          (if cfg.dbType = .postgres then schemaOrPublic input.Schema ++ "." ++ input.Name
            else input.Name) ++
          "(" ++
          stringsJoin ", "
            (if cfg.dbType = .postgres then dollarPlaceholders input.Params.length
              else questionPlaceholders input.Params.length) ++
          ")" ++ (if isProcedure then "" else " as result") ∧
    (input.Params = [] →
      stringsJoin ", "
        (if cfg.dbType = .postgres then dollarPlaceholders input.Params.length
          else questionPlaceholders input.Params.length) = "") ∧
    (∀ (db : Database) (kind : String),
      validateDatabase cfg input.Database = .ok () →
      db.queryRowString (typeStatement cfg input) = .ok kind →
      (cfg.readOnly = false ∨ resolvesToProcedure cfg kind = false) →
      (cfg.dbType = .postgres ∨
        ∃ affected, db.exec (useStatement input.Database) = .ok affected) →
      (ExecuteFunction cfg db input).issued.getLast?
        = some (invocationStatement cfg input (resolvesToProcedure cfg kind))) := by
  refine ⟨by simp [dollarPlaceholders], fun i hi => dollarPlaceholders_getElem? _ i hi,
    by simp [questionPlaceholders], ?_, ?_, ?_, ?_⟩
  · cases isProcedure <;> simp [invocationStatement]
  · cases isProcedure <;> by_cases hty : cfg.dbType = .postgres <;>
      simp [invocationStatement, hty, String.append_assoc]
  · intro hnil
    simp [hnil, dollarPlaceholders, questionPlaceholders, stringsJoin]
  · intro db kind hdb hkind hgo hswitch
    rw [ExecuteFunction_issued_invocation cfg db input kind hdb hkind hgo hswitch]
    simp

/-- Witness for C25: three parameters, a function under Postgres: the handler
issues `SELECT public.calc($1, $2, $3) as result` with the three parameters. -/
theorem ExecuteFunction_placeholders_witness :
    (ExecuteFunction (exampleConfig .postgres) (routineDatabase "f")
        ⟨"shop", "", "calc", [.number 100, .string "a", .null]⟩).issued.getLast?
      = some ⟨"SELECT public.calc($1, $2, $3) as result", [.number 100, .string "a", .null]⟩ :=
  (ExecuteFunction_placeholders (exampleConfig .postgres)
    ⟨"shop", "", "calc", [.number 100, .string "a", .null]⟩ false).2.2.2.2.2.2
    (routineDatabase "f") "f" rfl rfl (Or.inl rfl) (Or.inl rfl)

/-! ## Theorems: the limits loaded from the environment -/

theorem sscanfInt_nonneg_of_no_minus (value : String) (intValue : Int)
    (hscan : sscanfInt value = some intValue)
    (hminus : ∀ rest, scanfSkipSpace value.data ≠ some ('-' :: rest)) : 0 ≤ intValue := by
  unfold sscanfInt at hscan
  cases hskip : scanfSkipSpace value.data with
  | none => rw [hskip] at hscan; exact Option.noConfusion hscan
  | some text =>
    rw [hskip] at hscan
    cases text with
    | nil => exact Option.noConfusion hscan
    | cons c rest =>
      have hc : c ≠ '-' := by
        rintro rfl
        exact hminus rest hskip
      simp only [hc, decide_False, false_or, Bool.false_eq_true, if_false] at hscan
      split_ifs at hscan
      all_goals first
        | exact Option.noConfusion hscan
        | (have h := Option.some.inj hscan
           rw [← h]
           exact Int.ofNat_nonneg _)

theorem getEnvInt_cases (getenv : String → String) (key : String) (defaultValue : Int) :
    (getenv key = "" → getEnvInt getenv key defaultValue = defaultValue) ∧
    (sscanfInt (getenv key) = none → getEnvInt getenv key defaultValue = defaultValue) ∧
    (∀ intValue, getenv key ≠ "" → sscanfInt (getenv key) = some intValue →
      getEnvInt getenv key defaultValue = intValue) := by
  refine ⟨fun h => ?_, fun h => ?_, fun intValue hne h => ?_⟩
  · simp [getEnvInt, h]
  · by_cases hne : getenv key = "" <;> simp [getEnvInt, h, hne]
  · simp [getEnvInt, h, hne]

theorem getEnvInt_nonneg (getenv : String → String) (key : String) (defaultValue : Int)
    (hdefault : 0 ≤ defaultValue)
    (hminus : ∀ rest, scanfSkipSpace (getenv key).data ≠ some ('-' :: rest)) :
    0 ≤ getEnvInt getenv key defaultValue := by
  by_cases hne : getenv key = ""
  · rw [(getEnvInt_cases getenv key defaultValue).1 hne]; exact hdefault
  · cases hscan : sscanfInt (getenv key) with
    | none => rw [(getEnvInt_cases getenv key defaultValue).2.1 hscan]; exact hdefault
    | some intValue =>
      rw [(getEnvInt_cases getenv key defaultValue).2.2 intValue hne hscan]
      exact sscanfInt_nonneg_of_no_minus _ _ hscan hminus

/-- C26 (as stated, refuted): with `MAX_SELECT_LIMIT=-5` in the environment the
loaded `maxSelectLimit` is `-5`; `QuerySelect` then puts the limit
`uint64(-5)` on a request for ten rows. -/
theorem negative_limit_loaded :
    initMaxSelectLimit (selectLimitEnvironment "-5") = -5 ∧
    ¬ (0 ≤ initMaxSelectLimit (selectLimitEnvironment "-5")) ∧
    (selectQuery
        ⟨.postgres, ["shop"], false, false, initMaxSelectLimit (selectLimitEnvironment "-5"),
          1, 1, fun c => c⟩
        ⟨"shop", "users", "", [], [], [], 10, 0⟩).Limit = "18446744073709551611" :=
  ⟨by decide, by decide, rfl⟩

/-- C26 (amended): `getEnvInt` loads the default when the variable is unset or
empty and when `Sscanf` fails on it, and the scanned integer otherwise; the
defaults of the three row caps are `1000`, `1` and `1`, so each cap is
non-negative unless its environment string, after leading spaces, starts with
a minus sign. -/
theorem limits_from_environment (getenv : String → String) :
    (∀ (key : String) (defaultValue : Int),
      (getenv key = "" → getEnvInt getenv key defaultValue = defaultValue) ∧
      (sscanfInt (getenv key) = none → getEnvInt getenv key defaultValue = defaultValue) ∧
      (∀ intValue, getenv key ≠ "" → sscanfInt (getenv key) = some intValue →
        getEnvInt getenv key defaultValue = intValue)) ∧
    ((∀ rest, scanfSkipSpace (getenv "MAX_SELECT_LIMIT").data ≠ some ('-' :: rest)) →
      0 ≤ initMaxSelectLimit getenv) ∧
    ((∀ rest, scanfSkipSpace (getenv "MAX_UPDATE_LIMIT").data ≠ some ('-' :: rest)) →
      0 ≤ initMaxUpdateLimit getenv) ∧
    ((∀ rest, scanfSkipSpace (getenv "MAX_DELETE_LIMIT").data ≠ some ('-' :: rest)) →
      0 ≤ initMaxDeleteLimit getenv) :=
  ⟨fun key defaultValue => getEnvInt_cases getenv key defaultValue,
    fun h => getEnvInt_nonneg getenv _ 1000 (by decide) h,
    fun h => getEnvInt_nonneg getenv _ 1 (by decide) h,
    fun h => getEnvInt_nonneg getenv _ 1 (by decide) h⟩

/-- Witness for C26 (amended): a malformed `MAX_SELECT_LIMIT` leaves the cap
non-negative. -/
theorem limits_from_environment_witness :
    0 ≤ initMaxSelectLimit (selectLimitEnvironment "many") :=
  (limits_from_environment (selectLimitEnvironment "many")).2.1
    (fun rest h => by
      have h2 : scanfSkipSpace (selectLimitEnvironment "many" "MAX_SELECT_LIMIT").data
          = some ['m', 'a', 'n', 'y'] := by decide
      rw [h2] at h
      simp at h)

/-! ## Theorems: the result normalizer -/

theorem rowToMap_of_not_mem (values : List DriverValue) (key : String) :
    ∀ (columns : List String) (i : Nat) (row : RowMap), key ∉ columns →
      rowToMap columns i values row key = row key
  | [], _, _, _ => rfl
  | col :: columns, i, row, h => by
    have hne : key ≠ col := fun heq => h (heq ▸ List.mem_cons_self _ _)
    have hnot : key ∉ columns := fun hmem => h (List.mem_cons_of_mem _ hmem)
    rw [rowToMap, rowToMap_of_not_mem values key columns (i + 1) _ hnot]
    simp only [hne, if_false]

theorem rowToMap_last (values : List DriverValue) (key : String) :
    ∀ (columns : List String) (i : Nat) (row : RowMap) (j : Nat),
      columns[j]? = some key → (∀ k, j < k → columns[k]? ≠ some key) →
      rowToMap columns i values row key = some (normalizeValue (values.getD (i + j) .null))
  | [], _, _, j, h, _ => by simp at h
  | col :: columns, i, row, 0, h, hlast => by
    have hcol : col = key := by simpa using h
    have hnot : key ∉ columns := by
      intro hmem
      obtain ⟨k, hk⟩ := List.getElem?_of_mem hmem
      exact hlast (k + 1) (Nat.succ_pos k) (by simpa using hk)
    rw [rowToMap, rowToMap_of_not_mem values key columns (i + 1) _ hnot]
    simp only [hcol, if_true, Nat.add_zero]
  | col :: columns, i, row, j + 1, h, hlast => by
    have h' : columns[j]? = some key := by simpa using h
    have hlast' : ∀ k, j < k → columns[k]? ≠ some key := by
      intro k hk
      have := hlast (k + 1) (Nat.succ_lt_succ hk)
      simpa using this
    rw [rowToMap, rowToMap_last values key columns (i + 1) _ j h' hlast']
    have : i + 1 + j = i + (j + 1) := by omega
    rw [this]

theorem scanRowsLoop_all_ok (columns : List String) (finalErr : Option String) :
    ∀ (rows : List (List DriverValue)) (results : List RowMap),
      scanRowsLoop columns finalErr (rows.map Except.ok) results
        = ⟨results ++ rows.map (fun values => rowToMap columns 0 values (fun _ => none)),
            finalErr⟩
  | [], results => by simp [scanRowsLoop]
  | values :: rows, results => by
    rw [List.map_cons, scanRowsLoop, scanRowsLoop_all_ok columns finalErr rows]
    simp

/-- C27 (as stated, refuted): over the column list `id`, `id` and the driver row
`1`, `2`, the output row does not hold, under the name of the first column, the
driver value at that column's position: it holds the value of the last column
of that name. -/
theorem scanRows_duplicate_column_last_wins :
    ["id", "id"][0]? = some "id" ∧
    [DriverValue.int64 1, DriverValue.int64 2][0]? = some (.int64 1) ∧
    (scanRows ⟨.ok ["id", "id"], [.ok [.int64 1, .int64 2]], none⟩).results.length = 1 ∧
    ((scanRows ⟨.ok ["id", "id"], [.ok [.int64 1, .int64 2]], none⟩).results.map
        (fun row => row "id")) = [some (.int64 2)] := by
  refine ⟨rfl, rfl, rfl, ?_⟩
  decide

/-- C27 (amended): when every `rows.Scan` succeeds, `scanRows` returns one
output row per driver row, in order, together with `rows.Err()`; an output row
holds, under a column name, the converted driver value at the last position
that carries this name (at the column's own position whenever the column names
are pairwise distinct) and nothing under any other key; the conversion turns a
byte slice into the string of the same bytes and keeps every other value,
`nil` included. -/
theorem scanRows_preserves_shape (columns : List String) (rows : List (List DriverValue))
    (finalErr : Option String) :
    (scanRows ⟨.ok columns, rows.map Except.ok, finalErr⟩).results.length = rows.length ∧
    (scanRows ⟨.ok columns, rows.map Except.ok, finalErr⟩).err = finalErr ∧
    (∀ (n : Nat) (values : List DriverValue), rows[n]? = some values →
      ∃ row, (scanRows ⟨.ok columns, rows.map Except.ok, finalErr⟩).results[n]? = some row ∧
        (∀ (j : Nat) (col : String), columns[j]? = some col →
          (∀ k, j < k → columns[k]? ≠ some col) →
          row col = some (normalizeValue (values.getD j .null))) ∧
        (columns.Nodup → ∀ (j : Nat) (col : String), columns[j]? = some col →
          row col = some (normalizeValue (values.getD j .null))) ∧
        (∀ key, key ∉ columns → row key = none)) ∧
    (∀ b, normalizeValue (.bytes b) = .string b) ∧
    (∀ val, (∀ b, val ≠ .bytes b) → normalizeValue val = val) := by
  have hrun : scanRows ⟨.ok columns, rows.map Except.ok, finalErr⟩
      = ⟨rows.map (fun values => rowToMap columns 0 values (fun _ => none)), finalErr⟩ := by
    simp only [scanRows, scanRowsLoop_all_ok, List.nil_append]
  rw [hrun]
  have hlast : ∀ (values : List DriverValue) (j : Nat) (col : String),
      columns[j]? = some col → (∀ k, j < k → columns[k]? ≠ some col) →
      rowToMap columns 0 values (fun _ => none) col
        = some (normalizeValue (values.getD j .null)) := by
    intro values j col hj hk
    rw [rowToMap_last values col columns 0 _ j hj hk, Nat.zero_add]
  refine ⟨by simp, rfl, fun n values hn => ?_, fun b => rfl, fun val hval => ?_⟩
  · refine ⟨rowToMap columns 0 values (fun _ => none), by simp [hn], hlast values,
      fun hnodup j col hj => hlast values j col hj ?_,
      fun key hkey => rowToMap_of_not_mem values key columns 0 _ hkey⟩
    intro k hjk hk
    have hjlen : j < columns.length := by
      rcases List.getElem?_eq_some.mp hj with ⟨h, _⟩
      exact h
    have := List.getElem?_inj hjlen hnodup (hj.trans hk.symm)
    omega
  · cases val with
    | bytes b => exact absurd rfl (hval b)
    | _ => rfl

/-- Witness for C27 (amended): two distinct columns, a byte slice and a `nil`:
the byte slice comes back as the string of its bytes, the `nil` as it is. -/
theorem scanRows_preserves_shape_witness :
    ∃ row, (scanRows ⟨.ok ["name", "email"],
        [[DriverValue.bytes [74, 111], DriverValue.null]].map Except.ok, none⟩).results[0]?
          = some row ∧
      row "name" = some (.string [74, 111]) ∧ row "email" = some .null := by
  obtain ⟨row, hrow, _, hnodup, _⟩ :=
    (scanRows_preserves_shape ["name", "email"] [[.bytes [74, 111], .null]] none).2.2.1 0
      [.bytes [74, 111], .null] rfl
  exact ⟨row, hrow, hnodup (by decide) 0 "name" rfl, hnodup (by decide) 1 "email" rfl⟩

/-! ## Theorems: the predicate inside the preflight statement -/

theorem appendToSql_acc (sep : String) :
    ∀ (parts : List (Except String Statement)) (i : Nat) (w : String) (args : List Value),
      appendToSql sep parts i w args
        = match appendToSql sep parts i "" [] with
          | .error err => .error err
          | .ok (text, more) => .ok (w ++ text, args ++ more)
  | [], i, w, args => by simp [appendToSql]
  | .error err :: parts, i, w, args => by simp [appendToSql]
  | .ok ⟨partSql, partArgs⟩ :: parts, i, w, args => by
    by_cases hlen : (partSql.length == 0) = true
    · simp only [appendToSql, hlen, if_true]
      exact appendToSql_acc sep parts (i + 1) w args
    · simp only [appendToSql, hlen, if_false, Bool.false_eq_true]
      rw [appendToSql_acc sep parts (i + 1) ((if i > 0 then w ++ sep else w) ++ partSql)
        (args ++ partArgs),
        appendToSql_acc sep parts (i + 1) ((if i > 0 then "" ++ sep else "") ++ partSql)
        ([] ++ partArgs)]
      cases appendToSql sep parts (i + 1) "" [] with
      | error err => rfl
      | ok r =>
        obtain ⟨text, more⟩ := r
        by_cases hi : i > 0 <;> simp [hi, String.append_assoc]

theorem replacePositionalPlaceholders_cons_of_ne (pfx : String) (c : Char) (hc : c ≠ '?')
    (text : List Char) (i : Nat) :
    replacePositionalPlaceholders pfx (c :: text) i
      = c :: replacePositionalPlaceholders pfx text i := by
  rw [replacePositionalPlaceholders]
  all_goals
    intro h1
    first
      | exact hc h1
      | (intro h2; exact absurd h2 hc)

theorem replacePositionalPlaceholders_append (pfx : String) (more : List Char) (i : Nat) :
    ∀ head : List Char, '?' ∉ head →
      replacePositionalPlaceholders pfx (head ++ more) i
        = head ++ replacePositionalPlaceholders pfx more i
  | [], _ => rfl
  | c :: head, h => by
    have hc : c ≠ '?' := fun heq => h (heq ▸ List.mem_cons_self _ _)
    have hrest : '?' ∉ head := fun hmem => h (List.mem_cons_of_mem _ hmem)
    rw [List.cons_append, replacePositionalPlaceholders_cons_of_ne pfx c hc,
      replacePositionalPlaceholders_append pfx more i head hrest, List.cons_append]

/-- The predicate inside the preflight statement: when the table token holds
no question mark and the predicate of the kept clauses renders to the text `P`
with parameters `args`, the count query is `SELECT COUNT(*) FROM table WHERE P`
under MySQL and the same with `P` passed through the dollar replacement,
numbered from 1, under Postgres, both with the parameters `args`. -/
theorem countQuery_predicate_text (cfg : Config) (tableName : String)
    (clauses : List WhereClause) (text : String) (args : List Value)
    (htable : '?' ∉ tableName.data)
    (hkept : compileNodes whereNodeSelect cfg.upperTable clauses ≠ [])
    (hpred : wherePredicate (compileNodes whereNodeSelect cfg.upperTable clauses)
      = .ok (text, args)) :
    (countQuery cfg tableName clauses).ToSql
      = .ok ⟨match cfg.dbType with
          | .mysql => "SELECT COUNT(*) FROM " ++ tableName ++ " WHERE " ++ text
          | .postgres =>
            "SELECT COUNT(*) FROM " ++ tableName ++ " WHERE " ++
              String.mk (replacePositionalPlaceholders "$" text.data 0),
          args⟩ := by
  have hlen : (compileNodes whereNodeSelect cfg.upperTable clauses).length > 0 :=
    List.length_pos.mpr hkept
  have hfrom : appendToSql "" [stringPart tableName] 0 ("SELECT COUNT(*)" ++ " FROM ") []
      = .ok ("SELECT COUNT(*) FROM " ++ tableName, []) := by
    by_cases ht : (tableName.length == 0) = true
    · have hnil : tableName = "" := by
        by_contra hne
        exact String_length_ne_zero hne (by simpa using ht)
      subst hnil
      rfl
    · simp only [appendToSql, stringPart, ht, if_false, Bool.false_eq_true]
      simp [String.append_assoc]
  have hwhere : appendToSql " AND "
      ((compileNodes whereNodeSelect cfg.upperTable clauses).map Sqlizer.ToSql) 0
      ("SELECT COUNT(*) FROM " ++ tableName ++ " WHERE ") []
      = .ok ("SELECT COUNT(*) FROM " ++ tableName ++ " WHERE " ++ text, args) := by
    rw [appendToSql_acc]
    unfold wherePredicate at hpred
    rw [hpred]
    simp
  have hraw : (countQuery cfg tableName clauses).ToSql
      = .ok ⟨cfg.qb.ReplacePlaceholders
          ("SELECT COUNT(*) FROM " ++ tableName ++ " WHERE " ++ text), args⟩ := by
    have hcols : appendToSql ", " [stringPart "COUNT(*)"] 0 "SELECT " []
        = .ok ("SELECT COUNT(*)", []) := rfl
    simp only [countQuery, applyWhereConditions_eq, SelectBuilder.ToSql, selectFrom,
      List.nil_append, List.map_cons, List.map_nil, hcols, hfrom, hwhere, hlen, if_true,
      List.length_cons, List.length_nil, String.length]
    simp
  rw [hraw]
  cases hty : cfg.dbType with
  | mysql => simp [Config.qb, hty, PlaceholderFormat.ReplacePlaceholders]
  | postgres =>
    simp only [Config.qb, hty, PlaceholderFormat.ReplacePlaceholders]
    have hhead : '?' ∉ ("SELECT COUNT(*) FROM " ++ tableName ++ " WHERE ").data := by
      simp only [String.data_append, List.mem_append, not_or]
      exact ⟨⟨by decide, htable⟩, by decide⟩
    have happ := replacePositionalPlaceholders_append "$" text.data 0 _ hhead
    refine congrArg (fun s => Except.ok (Statement.mk s args)) ?_
    apply String.ext
    simp only [String.data_append] at happ ⊢
    exact happ

/-! ## Theorems: the LIMIT clause of the issued SELECT -/

theorem digitChar_ne_question (n : Nat) : Nat.digitChar n ≠ '?' := by
  have key : ∀ (p : Prop) [Decidable p] (a b : Char), a ≠ '?' → b ≠ '?' →
      (if p then a else b) ≠ '?' := by
    intro p _ a b ha hb
    split <;> assumption
  unfold Nat.digitChar
  repeat' (first | decide | apply key)

theorem toDigitsCore_no_question (fuel : Nat) :
    ∀ (n : Nat) (ds : List Char), '?' ∉ ds → '?' ∉ Nat.toDigitsCore 10 fuel n ds := by
  induction fuel with
  | zero => intro n ds h; simpa [Nat.toDigitsCore] using h
  | succ fuel ih =>
    intro n ds h
    have hd : '?' ∉ Nat.digitChar (n % 10) :: ds := by
      intro hmem
      rcases List.mem_cons.mp hmem with heq | hmem
      · exact digitChar_ne_question _ heq.symm
      · exact h hmem
    simp only [Nat.toDigitsCore]
    split_ifs
    · exact hd
    · exact ih _ _ hd

theorem toDigitsCore_ne_nil (fuel : Nat) :
    ∀ (n : Nat) (ds : List Char), ds ≠ [] → Nat.toDigitsCore 10 fuel n ds ≠ [] := by
  induction fuel with
  | zero => intro n ds h; simpa [Nat.toDigitsCore] using h
  | succ fuel ih =>
    intro n ds _
    simp only [Nat.toDigitsCore]
    split_ifs
    · exact List.cons_ne_nil _ _
    · exact ih _ _ (List.cons_ne_nil _ _)

theorem toString_nat_no_question (n : Nat) : '?' ∉ (toString n).data := by
  show '?' ∉ (Nat.repr n).data
  simp only [Nat.repr, Nat.toDigits, List.asString]
  exact toDigitsCore_no_question _ _ _ (List.not_mem_nil _)

theorem toString_nat_length_pos (n : Nat) : (toString n).length > 0 := by
  show (Nat.repr n).length > 0
  simp only [Nat.repr, Nat.toDigits, List.asString, String.length]
  apply List.length_pos.mpr
  simp only [Nat.toDigitsCore]
  split_ifs
  · exact List.cons_ne_nil _ _
  · exact toDigitsCore_ne_nil _ _ _ (List.cons_ne_nil _ _)

theorem replacePositionalPlaceholders_append_tail (pfx : String) (tail : List Char)
    (htail : '?' ∉ tail) :
    ∀ (text : List Char) (i : Nat),
      replacePositionalPlaceholders pfx (text ++ tail) i
        = replacePositionalPlaceholders pfx text i ++ tail
  | [], i => by
    have h := replacePositionalPlaceholders_append pfx [] i tail htail
    simpa [replacePositionalPlaceholders] using h
  | [c], i => by
    have hnil := replacePositionalPlaceholders_append_tail pfx tail htail [] i
    by_cases hc : c = '?'
    · subst hc
      cases tail with
      | nil => simp
      | cons t ts =>
        have ht : t ≠ '?' := fun heq => htail (heq ▸ List.mem_cons_self _ _)
        have h2 := replacePositionalPlaceholders_append_tail pfx (t :: ts) htail [] (i + 1)
        simp only [List.nil_append] at h2
        simp only [List.singleton_append]
        rw [replacePositionalPlaceholders]
        · rw [h2]
          simp [replacePositionalPlaceholders]
        · intro rest heq
          simp only [List.cons.injEq, true_and] at heq
          exact ht heq.1
    · simp only [List.singleton_append, List.nil_append] at hnil ⊢
      rw [replacePositionalPlaceholders_cons_of_ne pfx c hc,
        replacePositionalPlaceholders_cons_of_ne pfx c hc, hnil]
      simp [replacePositionalPlaceholders]
  | c :: d :: rest, i => by
    by_cases hc : c = '?'
    · subst hc
      by_cases hd : d = '?'
      · subst hd
        have ih := replacePositionalPlaceholders_append_tail pfx tail htail rest i
        rw [show ('?' :: '?' :: rest) ++ tail = '?' :: '?' :: (rest ++ tail) from rfl,
          replacePositionalPlaceholders, replacePositionalPlaceholders, ih]
        rfl
      · have ih := replacePositionalPlaceholders_append_tail pfx tail htail (d :: rest) (i + 1)
        simp only [List.cons_append] at ih ⊢
        rw [replacePositionalPlaceholders, replacePositionalPlaceholders]
        · rw [ih, List.append_assoc]
        all_goals
          intro rest2 heq
          simp only [List.cons.injEq, true_and] at heq
          exact hd heq.1
    · have ih := replacePositionalPlaceholders_append_tail pfx tail htail (d :: rest) i
      simp only [List.cons_append] at ih ⊢
      rw [replacePositionalPlaceholders_cons_of_ne pfx c hc,
        replacePositionalPlaceholders_cons_of_ne pfx c hc, ih]
      rfl

theorem ReplacePlaceholders_append_tail (f : PlaceholderFormat) (sql tail : String)
    (htail : '?' ∉ tail.data) :
    f.ReplacePlaceholders (sql ++ tail) = f.ReplacePlaceholders sql ++ tail := by
  cases f with
  | Question => rfl
  | Dollar =>
    simp only [PlaceholderFormat.ReplacePlaceholders]
    apply String.ext
    simp only [String.data_append]
    exact replacePositionalPlaceholders_append_tail "$" tail.data htail sql.data 0

theorem SelectBuilder_ToSql_limit_offset (d : SelectBuilder) (hl : '?' ∉ d.Limit.data)
    (ho : '?' ∉ d.Offset.data) :
    d.ToSql
      = match ({ d with Limit := "", Offset := "" } : SelectBuilder).ToSql with
        | .error err => .error err
        | .ok body =>
          .ok ⟨body.sql ++
              ((if d.Limit.length > 0 then " LIMIT " ++ d.Limit else "") ++
                (if d.Offset.length > 0 then " OFFSET " ++ d.Offset else "")),
            body.args⟩ := by
  simp only [SelectBuilder.ToSql]
  by_cases hc : (d.Columns.length == 0) = true
  · simp only [hc, if_true]
  · simp only [hc, if_false, Bool.false_eq_true]
    generalize appendToSql ", " (d.Columns.map stringPart) 0 "SELECT " [] = r1
    rcases r1 with err | ⟨sql1, args1⟩
    · rfl
    · simp only []
      generalize (match d.From with
        | none => (Except.ok (sql1, args1) : Except String (String × List Value))
        | some frm => appendToSql "" [stringPart frm] 0 (sql1 ++ " FROM ") args1) = r2
      rcases r2 with err | ⟨sql2, args2⟩
      · rfl
      · simp only []
        generalize (if d.WhereParts.length > 0 then
            appendToSql " AND " (d.WhereParts.map Sqlizer.ToSql) 0 (sql2 ++ " WHERE ") args2
          else .ok (sql2, args2)) = r3
        rcases r3 with err | ⟨sql3, args3⟩
        · rfl
        · simp only []
          generalize (if d.OrderByParts.length > 0 then
              appendToSql ", " (d.OrderByParts.map stringPart) 0 (sql3 ++ " ORDER BY ") args3
            else .ok (sql3, args3)) = r4
          rcases r4 with err | ⟨sql4, args4⟩
          · rfl
          · have htail : '?' ∉ ((if d.Limit.length > 0 then " LIMIT " ++ d.Limit else "") ++
                (if d.Offset.length > 0 then " OFFSET " ++ d.Offset else "")).data := by
              simp only [String.data_append, List.mem_append, not_or]
              constructor
              · split
                · simp only [String.data_append, List.mem_append, not_or]
                  exact ⟨by decide, hl⟩
                · decide
              · split
                · simp only [String.data_append, List.mem_append, not_or]
                  exact ⟨by decide, ho⟩
                · decide
            have hempty : ¬ (("" : String).length > 0) := by decide
            simp only [hempty, if_false]
            rw [← ReplacePlaceholders_append_tail _ _ _ htail]
            refine congrArg
              (fun s => Except.ok (Statement.mk (d.PlaceholderFormat.ReplacePlaceholders s) args4))
              ?_
            by_cases h1 : d.Limit.length > 0 <;> by_cases h2 : d.Offset.length > 0 <;>
              simp [h1, h2, String.append_assoc]

theorem selectQuery_Limit (cfg : Config) (input : QuerySelectInput) :
    (selectQuery cfg input).Limit = toString (uint64 (effectiveLimit cfg input.Limit)) := by
  unfold selectQuery
  by_cases ho : input.Offset > 0 <;> simp [ho]

theorem selectQuery_Offset (cfg : Config) (input : QuerySelectInput) :
    (selectQuery cfg input).Offset
      = if input.Offset > 0 then toString (uint64 input.Offset) else "" := by
  unfold selectQuery
  by_cases ho : input.Offset > 0 <;> by_cases hc : input.Columns.length > 0 <;>
    by_cases hw : input.Where.length > 0 <;>
    simp [ho, hc, hw, applyWhereConditions_eq, selectFrom]

theorem uint64_effectiveLimit (cfg : Config) (requested : Int)
    (hmin : 0 ≤ cfg.maxSelectLimit) (hmax : cfg.maxSelectLimit < 2 ^ 63) :
    uint64 (effectiveLimit cfg requested)
      = (if 0 < requested ∧ requested ≤ cfg.maxSelectLimit then requested
          else cfg.maxSelectLimit).toNat := by
  have hrange : 0 ≤ effectiveLimit cfg requested ∧
      effectiveLimit cfg requested ≤ cfg.maxSelectLimit ∧
      effectiveLimit cfg requested
        = (if 0 < requested ∧ requested ≤ cfg.maxSelectLimit then requested
            else cfg.maxSelectLimit) := by
    simp only [effectiveLimit]
    split_ifs <;> omega
  unfold uint64
  rw [Int.emod_eq_of_lt hrange.1 (by omega), hrange.2.2]

/-- C10: for every requested limit (any integer) and every `maxSelectLimit`
between `0` and the largest Go `int`, on an allowed database: when the request
renders, `QuerySelect` issues exactly one statement, and it is the text of the
request without limit and offset followed by ` LIMIT n` and, for a positive
offset, ` OFFSET m`, where `n` is the requested limit when
`0 < requested ≤ maxSelectLimit` and `maxSelectLimit` otherwise, so `n` never
exceeds `maxSelectLimit`; when the request does not render, the build error is
returned and nothing is issued. -/
theorem select_limit_clamp (cfg : Config) (db : Database) (input : QuerySelectInput)
    (hmin : 0 ≤ cfg.maxSelectLimit) (hmax : cfg.maxSelectLimit < 2 ^ 63)
    (hdb : input.Database ∈ cfg.dbNames) :
    (0 ≤ (if 0 < input.Limit ∧ input.Limit ≤ cfg.maxSelectLimit then input.Limit
          else cfg.maxSelectLimit) ∧
      (if 0 < input.Limit ∧ input.Limit ≤ cfg.maxSelectLimit then input.Limit
          else cfg.maxSelectLimit) ≤ cfg.maxSelectLimit) ∧
    (∀ err : String,
      ({ selectQuery cfg input with Limit := "", Offset := "" } : SelectBuilder).ToSql
          = .error err →
        QuerySelect cfg db input = ⟨[], .error (.buildFailed err)⟩) ∧
    (∀ body : Statement,
      ({ selectQuery cfg input with Limit := "", Offset := "" } : SelectBuilder).ToSql
          = .ok body →
        (QuerySelect cfg db input).issued
          = [⟨body.sql ++
                (" LIMIT " ++
                    toString (if 0 < input.Limit ∧ input.Limit ≤ cfg.maxSelectLimit
                      then input.Limit else cfg.maxSelectLimit).toNat ++
                  (if input.Offset > 0 then " OFFSET " ++ toString (uint64 input.Offset)
                    else "")),
              body.args⟩]) := by
  have hval := validateDatabase_of_mem cfg input.Database hdb
  have hl : '?' ∉ (selectQuery cfg input).Limit.data := by
    rw [selectQuery_Limit]
    exact toString_nat_no_question _
  have ho : '?' ∉ (selectQuery cfg input).Offset.data := by
    rw [selectQuery_Offset]
    split
    · exact toString_nat_no_question _
    · decide
  have hlimlen : (selectQuery cfg input).Limit.length > 0 := by
    rw [selectQuery_Limit]
    exact toString_nat_length_pos _
  have hofflen : (selectQuery cfg input).Offset.length > 0 ↔ input.Offset > 0 := by
    rw [selectQuery_Offset]
    by_cases h : input.Offset > 0
    · simp only [h, if_true, iff_true]
      exact toString_nat_length_pos _
    · simp only [h, if_false, iff_false]
      decide
  have hto := SelectBuilder_ToSql_limit_offset (selectQuery cfg input) hl ho
  simp only [hlimlen, if_true] at hto
  have hoff : (if (selectQuery cfg input).Offset.length > 0
        then " OFFSET " ++ (selectQuery cfg input).Offset else "")
      = (if input.Offset > 0 then " OFFSET " ++ toString (uint64 input.Offset) else "") := by
    by_cases h : input.Offset > 0
    · rw [if_pos (hofflen.mpr h), if_pos h, selectQuery_Offset, if_pos h]
    · rw [if_neg (fun hp => h (hofflen.mp hp)), if_neg h]
  rw [hoff, selectQuery_Limit, uint64_effectiveLimit cfg input.Limit hmin hmax] at hto
  refine ⟨?_, ?_, ?_⟩
  · split_ifs <;> omega
  · intro err herr
    rw [herr] at hto
    simp only [QuerySelect, hval, hto]
  · intro body hbody
    rw [hbody] at hto
    simp only [QuerySelect, hval, hto]
    cases db.query _ <;> rfl

/-- Witness for C10: a request for a million rows under the default cap of a
thousand is issued with `LIMIT 1000`. -/
theorem select_limit_clamp_witness :
    (QuerySelect (exampleConfig .postgres) (constantDatabase 0 0)
        ⟨"shop", "users", "", [], [⟨"id", ">", .number 7⟩], [], 1000000, 0⟩).issued
      = [⟨"SELECT * FROM users WHERE id > $1 LIMIT 1000", [.number 7]⟩] :=
  (select_limit_clamp (exampleConfig .postgres) (constantDatabase 0 0)
    ⟨"shop", "users", "", [], [⟨"id", ">", .number 7⟩], [], 1000000, 0⟩
    (by decide) (by decide) (by decide)).2.2
    ⟨"SELECT * FROM users WHERE id > $1", [.number 7]⟩ rfl

end McpSql
